import Mathlib

set_option maxHeartbeats 1000000
set_option maxRecDepth 10000

/-! Shallow embedding of the poeopenaiwrapper streaming / tool-handling core
    (src/docker/app/tool_handler.py, src/docker/app/poe_client.py,
    src/docker/app/api.py) together with proofs about the specification
    claims.  Python strings are modelled as Lean `String` values (sequences
    of Unicode code points); Python regular expressions are modelled by
    hand-written scanners that reproduce the engine's leftmost /
    greedy / lazy semantics for the concrete patterns appearing in the
    source. -/

/-- Whitespace as Python sees it for `str.strip()` and for `\s` in a
    `re` pattern over `str`: ASCII whitespace, the C1 separator controls,
    NEL, NBSP and the Unicode space characters. -/
def pyWhite (c : Char) : Bool :=
  let n := c.toNat
  (9 ≤ n && n ≤ 13) || n = 32 || (28 ≤ n && n ≤ 31) || n = 0x85 || n = 0xa0 ||
  n = 0x1680 || (0x2000 ≤ n && n ≤ 0x200a) || n = 0x2028 || n = 0x2029 ||
  n = 0x202f || n = 0x205f || n = 0x3000

/-- Word characters for `\w` and `\b` in the source's regexes.  The source
    operates on `str` where `\w` is Unicode-aware; the patterns in the
    repository are only exercised on ASCII, so non-ASCII letters/digits are
    approximated by Lean's `Char.isAlpha`/`Char.isDigit` (ASCII). -/
def pyWord (c : Char) : Bool :=
  c.isAlpha || c.isDigit || c = '_'

/-- Model: `needle.isPrefixOf hay` on character lists. -/
def listPrefix (needle hay : List Char) : Bool :=
  needle.isPrefixOf hay

/-- Python's substring test `needle in hay` on character lists. -/
def listContains (needle : List Char) : List Char → Bool
  | [] => needle.isEmpty
  | c :: t => listPrefix needle (c :: t) || listContains needle t

/-- Python `needle in hay` for strings. -/
def pyContains (hay needle : String) : Bool :=
  listContains needle.data hay.data

/-- Python `hay.startswith needle`. -/
def pyStartsWith (hay needle : String) : Bool :=
  listPrefix needle.data hay.data

/-- Python `hay.count needle` (non-overlapping, for a non-empty needle),
    written with explicit fuel; `fuel = hay.length + 1` is always enough. -/
def listCountAux (needle : List Char) : Nat → List Char → Nat
  | 0, _ => 0
  | _ + 1, [] => 0
  | fuel + 1, c :: t =>
    if listPrefix needle (c :: t) then
      1 + listCountAux needle fuel ((c :: t).drop needle.length)
    else
      listCountAux needle fuel t

/-- Python `hay.count needle`. -/
def pyCount (hay needle : String) : Nat :=
  listCountAux needle.data (hay.data.length + 1) hay.data

/-- Python `s.strip()`. -/
def pyStrip (s : String) : String :=
  String.mk (((s.data.dropWhile pyWhite).reverse.dropWhile pyWhite).reverse)

/-- Strip a literal from the front of the input; `none` when the input does
    not start with the literal. -/
def stripLit : List Char → List Char → Option (List Char)
  | [], l => some l
  | _ :: _, [] => none
  | c :: cs, x :: xs => if x = c then stripLit cs xs else none

/-- Case-insensitive variant of `stripLit` (the literal is given in lower
    case; input characters are lowered before comparison, modelling
    `re.IGNORECASE` on the ASCII literals of the source's patterns). -/
def stripLitCI : List Char → List Char → Option (List Char)
  | [], l => some l
  | _ :: _, [] => none
  | c :: cs, x :: xs => if x.toLower = c then stripLitCI cs xs else none

/-- Decimal digits to a natural number, Python `int` on a digit string. -/
def digitsToNat (ds : List Char) : Nat :=
  ds.foldl (fun a c => a * 10 + (c.toNat - '0'.toNat)) 0

/-! ### Python's `json` module

`json.loads` acceptance (the strict default decoder) and `json.dumps` of a
string value (the default `ensure_ascii=True` encoder).  Only validity of
`loads` matters to the source (`tool_handler.py` uses it purely as a
validator), so the model is an acceptor returning the unconsumed suffix. -/

/-- JSON whitespace accepted between tokens by Python's decoder. -/
def jsonWs (c : Char) : Bool :=
  c = ' ' || c = '\t' || c = '\n' || c = '\r'

/-- Drop JSON whitespace. -/
def skipJsonWs (l : List Char) : List Char :=
  l.dropWhile jsonWs

/-- Hex digit as accepted in a `\uXXXX` escape. -/
def pyHexDigit (c : Char) : Bool :=
  c.isDigit || ('a' ≤ c && c ≤ 'f') || ('A' ≤ c && c ≤ 'F')

/-- Body of a JSON string literal after the opening quote: the strict
    Python decoder accepts any character ≥ U+0020 except `"` and `\`
    verbatim, plus the eight simple escapes and `\uXXXX`.  Returns the
    suffix after the closing quote. -/
def parseJsonStringBody : List Char → Option (List Char)
  | [] => none
  | c :: rest =>
    if c = '"' then some rest
    else if c = '\\' then
      match rest with
      | [] => none
      | e :: rest2 =>
        if e = '"' || e = '\\' || e = '/' || e = 'b' || e = 'f' || e = 'n' ||
            e = 'r' || e = 't' then
          parseJsonStringBody rest2
        else if e = 'u' then
          match rest2 with
          | h1 :: h2 :: h3 :: h4 :: rest3 =>
            if pyHexDigit h1 && pyHexDigit h2 && pyHexDigit h3 && pyHexDigit h4 then
              parseJsonStringBody rest3
            else none
          | _ => none
        else none
    else if 0x20 ≤ c.toNat then parseJsonStringBody rest
    else none

/-- The integer part of Python's `NUMBER_RE`: `0` or `[1-9][0-9]*`. -/
def parseJsonInt : List Char → Option (List Char)
  | [] => none
  | c :: t =>
    if c = '0' then some t
    else if c.isDigit then some (t.dropWhile Char.isDigit)
    else none

/-- Optional fraction `(\.\d+)?`. -/
def parseJsonFrac (l : List Char) : List Char :=
  match l with
  | '.' :: t =>
    let ds := t.takeWhile Char.isDigit
    if ds.isEmpty then l else t.dropWhile Char.isDigit
  | _ => l

/-- Optional exponent `([eE][-+]?\d+)?`. -/
def parseJsonExp (l : List Char) : List Char :=
  match l with
  | e :: t =>
    if e = 'e' || e = 'E' then
      let t2 := match t with
        | s :: u => if s = '+' || s = '-' then u else t
        | [] => t
      let ds := t2.takeWhile Char.isDigit
      if ds.isEmpty then l else t2.dropWhile Char.isDigit
    else l
  | [] => l

/-- A JSON number per Python's `NUMBER_RE` (`-?(0|[1-9]\d*)(\.\d+)?([eE][-+]?\d+)?`),
    matched at the current position. -/
def parseJsonNumber (l : List Char) : Option (List Char) :=
  let l1 := match l with
    | '-' :: t => some t
    | _ => some l
  match l1 with
  | some l2 =>
    match parseJsonInt l2 with
    | some l3 => some (parseJsonExp (parseJsonFrac l3))
    | none => none
  | none => none

mutual

/-- One JSON value; fuel decreases on every recursive descent (each
    descent consumes at least one input character, so `input.length + 1`
    fuel always suffices).  Mirrors Python's `py_scan_once`, including the
    non-standard constants `NaN`, `Infinity` and `-Infinity`. -/
def parseJsonValue : Nat → List Char → Option (List Char)
  | 0, _ => none
  | fuel + 1, l =>
    match l with
    | '"' :: rest => parseJsonStringBody rest
    | '{' :: rest =>
      match skipJsonWs rest with
      | '}' :: r2 => some r2
      | r => parseJsonMember fuel r
    | '[' :: rest =>
      match skipJsonWs rest with
      | ']' :: r2 => some r2
      | r =>
        match parseJsonValue fuel r with
        | some r2 => parseJsonArrRest fuel (skipJsonWs r2)
        | none => none
    | _ =>
      match stripLit "null".data l with
      | some r => some r
      | none =>
      match stripLit "true".data l with
      | some r => some r
      | none =>
      match stripLit "false".data l with
      | some r => some r
      | none =>
      match stripLit "NaN".data l with
      | some r => some r
      | none =>
      match stripLit "Infinity".data l with
      | some r => some r
      | none =>
      match stripLit "-Infinity".data l with
      | some r => some r
      | none => parseJsonNumber l

/-- One `"key": value` object member followed by the rest of the object. -/
def parseJsonMember : Nat → List Char → Option (List Char)
  | 0, _ => none
  | fuel + 1, l =>
    match l with
    | '"' :: rest =>
      match parseJsonStringBody rest with
      | some r1 =>
        match skipJsonWs r1 with
        | ':' :: r3 =>
          match parseJsonValue fuel (skipJsonWs r3) with
          | some r4 => parseJsonObjRest fuel (skipJsonWs r4)
          | none => none
        | _ => none
      | none => none
    | _ => none

/-- After a member: `}` ends the object, `,` starts another member. -/
def parseJsonObjRest : Nat → List Char → Option (List Char)
  | 0, _ => none
  | fuel + 1, l =>
    match l with
    | '}' :: r2 => some r2
    | ',' :: r2 => parseJsonMember fuel (skipJsonWs r2)
    | _ => none

/-- After an array element: `]` ends the array, `,` starts another element. -/
def parseJsonArrRest : Nat → List Char → Option (List Char)
  | 0, _ => none
  | fuel + 1, l =>
    match l with
    | ']' :: r2 => some r2
    | ',' :: r2 =>
      match parseJsonValue fuel (skipJsonWs r2) with
      | some r3 => parseJsonArrRest fuel (skipJsonWs r3)
      | none => none
    | _ => none

end

/-- Model: `json.loads` succeeds on `s`: optional whitespace, one value, optional
    whitespace, end of input (`raw_decode` plus the extra-data check). -/
def pyJsonValid (s : String) : Bool :=
  match parseJsonValue (s.data.length + 1) (skipJsonWs s.data) with
  | some rest => (skipJsonWs rest).isEmpty
  | none => false

/-- Lower-case hex digit. -/
def hexDigitChar (k : Nat) : Char :=
  if k < 10 then Char.ofNat ('0'.toNat + k) else Char.ofNat ('a'.toNat + (k - 10))

/-- Four-digit lower-case hex rendering used by `\u%04x`. -/
def hex4 (n : Nat) : List Char :=
  [hexDigitChar (n / 4096 % 16), hexDigitChar (n / 256 % 16),
   hexDigitChar (n / 16 % 16), hexDigitChar (n % 16)]

/-- Encoding of one character by `json.dumps` with the default
    `ensure_ascii=True`: printable ASCII other than `"` and `\` is kept,
    the short escapes are used where they exist, everything else becomes
    `\uXXXX` (a surrogate pair above U+FFFF). -/
def encJsonChar (c : Char) : List Char :=
  if c = '"' then ['\\', '"']
  else if c = '\\' then ['\\', '\\']
  else if c = '\n' then ['\\', 'n']
  else if c = '\r' then ['\\', 'r']
  else if c = '\t' then ['\\', 't']
  else if c.toNat = 8 then ['\\', 'b']
  else if c.toNat = 12 then ['\\', 'f']
  else if 0x20 ≤ c.toNat && c.toNat ≤ 0x7e then [c]
  else if c.toNat < 0x10000 then '\\' :: 'u' :: hex4 c.toNat
  else
    let v := c.toNat - 0x10000
    ('\\' :: 'u' :: hex4 (0xd800 + v / 0x400)) ++ ('\\' :: 'u' :: hex4 (0xdc00 + v % 0x400))

/-- Model: `json.dumps` applied to a Python string value. -/
def pyDumpsStr (s : String) : String :=
  String.mk ('"' :: s.data.foldr (fun c acc => encJsonChar c ++ acc) ['"'])

/-! ### tool_handler.py — ToolCallHandler

The compiled pattern is
`<tool_call>\s*<name>([^<]+)</name>\s*<arguments>(.*?)</arguments>\s*</tool_call>`
with `re.DOTALL`.  All quantifier choices in it are deterministic: the
greedy `\s*` runs are followed by `<`, the greedy `([^<]+)` is followed by
`<`, and the lazy `(.*?)` takes the shortest prefix after which the
closing part matches.  The scanners below reproduce exactly that. -/

/-- The closing continuation `</arguments>\s*</tool_call>`. -/
def tcClose (l : List Char) : Option (List Char) :=
  match stripLit "</arguments>".data l with
  | some l1 => stripLit "</tool_call>".data (l1.dropWhile pyWhite)
  | none => none

/-- The lazy arguments group: shortest prefix whose end lets `tcClose`
    match; returns (group characters, suffix after the closing). -/
def tcArgs : List Char → Option (List Char × List Char)
  | [] =>
    match tcClose [] with
    | some rest => some ([], rest)
    | none => none
  | c :: t =>
    match tcClose (c :: t) with
    | some rest => some ([], rest)
    | none => (tcArgs t).map fun p => (c :: p.1, p.2)

/-- One attempted match of the tool-call pattern anchored at the current
    position; returns ((raw group 1, raw group 2), suffix after match). -/
def tcMatchAt (l : List Char) : Option ((List Char × List Char) × List Char) :=
  match stripLit "<tool_call>".data l with
  | none => none
  | some l1 =>
    match stripLit "<name>".data (l1.dropWhile pyWhite) with
    | none => none
    | some l3 =>
      let nm := l3.takeWhile (fun c => c ≠ '<')
      if nm.isEmpty then none
      else
        match stripLit "</name>".data (l3.dropWhile (fun c => c ≠ '<')) with
        | none => none
        | some l5 =>
          match stripLit "<arguments>".data (l5.dropWhile pyWhite) with
          | none => none
          | some l7 =>
            match tcArgs l7 with
            | some (args, rest) => some ((nm, args), rest)
            | none => none

/-- Model: `finditer`/`sub` over the whole input: returns the concatenation of the
    unmatched segments (what `pattern.sub "" s` keeps) and the list of
    (group 1, group 2) pairs in match order.  `fuel = input.length + 1`
    always suffices since every step consumes at least one character. -/
def tcScanAux : Nat → List Char → List Char × List (List Char × List Char)
  | 0, l => (l, [])
  | _ + 1, [] => ([], [])
  | fuel + 1, c :: t =>
    match tcMatchAt (c :: t) with
    | some (m, rest) =>
      let s := tcScanAux fuel rest
      (s.1, m :: s.2)
    | none =>
      let s := tcScanAux fuel t
      (c :: s.1, s.2)

/-- Scan of the full input. -/
def tcScan (l : List Char) : List Char × List (List Char × List Char) :=
  tcScanAux (l.length + 1) l

/-- Model: `re.sub(r"(\w+):", r'"\1":', s)` from `_fix_json_arguments`: every
    maximal word run directly followed by a colon gets quoted. -/
def wordColonSubAux : Nat → List Char → List Char
  | 0, l => l
  | _ + 1, [] => []
  | fuel + 1, c :: t =>
    if pyWord c then
      let run := (c :: t).takeWhile pyWord
      match (c :: t).dropWhile pyWord with
      | ':' :: r2 => '"' :: (run ++ '"' :: ':' :: wordColonSubAux fuel r2)
      | rest => run ++ wordColonSubAux fuel rest
    else c :: wordColonSubAux fuel t

/-- Model: `ToolCallHandler._fix_json_arguments`. -/
def fix_json_arguments (a : String) : String :=
  let fixed := String.mk (wordColonSubAux (a.data.length + 1) a.data)
  if pyJsonValid fixed then fixed else pyDumpsStr a

/-- One match of `\*?Thinking\.\.\..*?\*?\s*` (DOTALL) anchored at the
    current position: the lazy `.*?` always matches empty because the
    remainder of the pattern is all-optional, so a match is a leading
    optional `*`, the literal marker, an optional `*`, then greedy
    whitespace. -/
def thinkNoiseAt (l : List Char) : Option (List Char) :=
  let afterMarker : Option (List Char) :=
    match stripLit "*Thinking...".data l with
    | some r => some r
    | none => stripLit "Thinking...".data l
  match afterMarker with
  | none => none
  | some l1 =>
    let l2 := match l1 with
      | '*' :: t => t
      | _ => l1
    some (l2.dropWhile pyWhite)

/-- Model: `re.sub(r"\*?Thinking\.\.\..*?\*?\s*", "", s, flags=re.DOTALL)`. -/
def thinkNoiseSubAux : Nat → List Char → List Char
  | 0, l => l
  | _ + 1, [] => []
  | fuel + 1, c :: t =>
    match thinkNoiseAt (c :: t) with
    | some rest => thinkNoiseSubAux fuel rest
    | none => c :: thinkNoiseSubAux fuel t

/-- Model: `re.sub(r"\s{2,}", " ", s)`: every maximal whitespace run of length at
    least two becomes a single space. -/
def wsRun2SubAux : Nat → List Char → List Char
  | 0, l => l
  | _ + 1, [] => []
  | fuel + 1, c :: t =>
    if pyWhite c then
      match t with
      | d :: _ =>
        if pyWhite d then ' ' :: wsRun2SubAux fuel (t.dropWhile pyWhite)
        else c :: wsRun2SubAux fuel t
      | [] => [c]
    else c :: wsRun2SubAux fuel t

/-- A parsed tool call (`models.ChatCompletionMessageToolCall` with its
    `function` dict flattened to its two keys). -/
structure ChatCompletionMessageToolCall where
  id : String
  name : String
  arguments : String
deriving DecidableEq

/-- Model: `ToolCallHandler.parse_tool_calls`.  The ids in the source are
    `f"call_{uuid.uuid4().hex[:24]}"`; the stream of `uuid4().hex` values
    is modelled by the oracle `supply` (one value per match, in order). -/
def parse_tool_calls (supply : Nat → String) (content : String) :
    String × List ChatCompletionMessageToolCall :=
  if content = "" then (content, [])
  else
    let scan := tcScan content.data
    if scan.2 = [] then (content, [])
    else
      let calls := scan.2.enum.map fun km =>
        { id := "call_" ++ (supply km.1).take 24
          name := pyStrip (String.mk km.2.1)
          arguments :=
            let a := pyStrip (String.mk km.2.2)
            if pyJsonValid a then a else fix_json_arguments a
          : ChatCompletionMessageToolCall }
      let c1 := pyStrip (String.mk scan.1)
      let c2 := String.mk (thinkNoiseSubAux (c1.data.length + 1) c1.data)
      let c3 := String.mk (wsRun2SubAux (c2.data.length + 1) c2.data)
      (pyStrip c3, calls)

/-- The per-chunk tool-call dict produced on the streaming path
    (`{"index": 0, "id": ..., "type": "function", "function": ...}`). -/
structure StreamToolCallDelta where
  index : Nat
  id : String
  name : String
  arguments : String
deriving DecidableEq

/-- Model: `ToolCallHandler.extract_tool_calls_from_stream`. -/
def extract_tool_calls_from_stream (supply : Nat → String)
    (chunk buffer : String) : String × List StreamToolCallDelta × String :=
  let combined := buffer ++ chunk
  if pyContains combined "<tool_call>" then
    if pyContains combined "</tool_call>" then
      let parsed := (parse_tool_calls supply combined).2
      let deltas := parsed.map fun c =>
        { index := 0, id := c.id, name := c.name, arguments := c.arguments
          : StreamToolCallDelta }
      let newBuf := pyStrip (String.mk (tcScan combined.data).1)
      ("", deltas, newBuf)
    else ("", [], combined)
  else (chunk, [], "")

/-! ### poe_client.py — reasoning heuristics

`PoeClient.estimate_reasoning_tokens` runs three `re.findall` calls with
`re.DOTALL | re.IGNORECASE`, counts `"Thinking..."` occurrences and scans
for `\((\d+)s elapsed\)` annotations.  Each pattern is reproduced by a
dedicated scanner; alternations in them are first-character disjoint, so
ordered first-match alternation is faithful. -/

/-- Opening alternation `<(?:thinking|think|reasoning)>` (case-insensitive). -/
def p1Open (l : List Char) : Option (List Char) :=
  match stripLitCI "<thinking>".data l with
  | some r => some r
  | none =>
    match stripLitCI "<think>".data l with
    | some r => some r
    | none => stripLitCI "<reasoning>".data l

/-- Closing alternation `</(?:thinking|think|reasoning)>`. -/
def p1Close (l : List Char) : Option (List Char) :=
  match stripLitCI "</thinking>".data l with
  | some r => some r
  | none =>
    match stripLitCI "</think>".data l with
    | some r => some r
    | none => stripLitCI "</reasoning>".data l

/-- Lazy `(.*?)` before the closing tag of pattern 1. -/
def p1Body : List Char → Option (List Char × List Char)
  | [] =>
    match p1Close [] with
    | some rest => some ([], rest)
    | none => none
  | c :: t =>
    match p1Close (c :: t) with
    | some rest => some ([], rest)
    | none => (p1Body t).map fun p => (c :: p.1, p.2)

/-- One match of `<(?:thinking|think|reasoning)>(.*?)</(?:thinking|think|reasoning)>`
    anchored at the current position; returns (group 1, rest). -/
def p1At (l : List Char) : Option (String × List Char) :=
  match p1Open l with
  | none => none
  | some l1 =>
    match p1Body l1 with
    | some p => some (String.mk p.1, p.2)
    | none => none

/-- Backtracking `\s*\n\n>`: the greedy run gives characters back until the
    literal `\n\n>` fits; largest offset wins.  `j` counts down from the
    whitespace-run length. -/
def p2Try (l1 : List Char) : Nat → Option (List Char)
  | 0 => if listPrefix ['\n', '\n', '>'] l1 then some (l1.drop 3) else none
  | j + 1 =>
    if listPrefix ['\n', '\n', '>'] (l1.drop (j + 1)) then some (l1.drop (j + 1 + 3))
    else p2Try l1 j

/-- The zero-width lookahead `(?=\n\n[^>]|$)` of pattern 2. -/
def p2Look (l : List Char) : Bool :=
  match l with
  | [] => true
  | '\n' :: '\n' :: c :: _ => c ≠ '>'
  | _ => false

/-- Lazy `(.*?)` of pattern 2, stopping at the first position where the
    lookahead holds (it always holds at end of input). -/
def p2Body : List Char → List Char × List Char
  | [] => if p2Look [] then ([], []) else ([], [])
  | c :: t =>
    if p2Look (c :: t) then ([], c :: t)
    else
      let p := p2Body t
      (c :: p.1, p.2)

/-- One match of `\*Thinking\.\.\.\*\s*\n\n>(.*?)(?=\n\n[^>]|$)`. -/
def p2At (l : List Char) : Option (String × List Char) :=
  match stripLitCI "*thinking...*".data l with
  | none => none
  | some l1 =>
    match p2Try l1 (l1.takeWhile pyWhite).length with
    | none => none
    | some l2 =>
      let p := p2Body l2
      some (String.mk p.1, p.2)

/-- Leading alternation of pattern 3
    (`Let me (?:think|analyze)|I need to consider|My reasoning|Step-by-step`);
    returns (consumed original characters, rest). -/
def p3Lead (l : List Char) : Option (List Char × List Char) :=
  match stripLitCI "let me think".data l with
  | some r => some (l.take "let me think".data.length, r)
  | none =>
  match stripLitCI "let me analyze".data l with
  | some r => some (l.take "let me analyze".data.length, r)
  | none =>
  match stripLitCI "i need to consider".data l with
  | some r => some (l.take "i need to consider".data.length, r)
  | none =>
  match stripLitCI "my reasoning".data l with
  | some r => some (l.take "my reasoning".data.length, r)
  | none =>
  match stripLitCI "step-by-step".data l with
  | some r => some (l.take "step-by-step".data.length, r)
  | none => none

/-- The lookahead `(?=\n\n|$)` of pattern 3. -/
def p3Look (l : List Char) : Bool :=
  match l with
  | [] => true
  | '\n' :: '\n' :: _ => true
  | _ => false

/-- Lazy `.*?` of pattern 3. -/
def p3Body : List Char → List Char × List Char
  | [] => if p3Look [] then ([], []) else ([], [])
  | c :: t =>
    if p3Look (c :: t) then ([], c :: t)
    else
      let p := p3Body t
      (c :: p.1, p.2)

/-- One match of pattern 3.  The pattern has no capture group, so
    `re.findall` yields the whole matched text. -/
def p3At (l : List Char) : Option (String × List Char) :=
  match p3Lead l with
  | none => none
  | some lr =>
    let p := p3Body lr.2
    some (String.mk (lr.1 ++ p.1), p.2)

/-- Generic `re.findall` driver: scan left to right, restart after each
    (always non-empty) match. -/
def reFindAllAux (matchAt : List Char → Option (String × List Char)) :
    Nat → List Char → List String
  | 0, _ => []
  | _ + 1, [] => []
  | fuel + 1, c :: t =>
    match matchAt (c :: t) with
    | some (g, rest) => g :: reFindAllAux matchAt fuel rest
    | none => reFindAllAux matchAt fuel t

/-- One match of `\((\d+)s elapsed\)`, returning the captured number. -/
def timeMatchAt (l : List Char) : Option (Nat × List Char) :=
  match l with
  | '(' :: t =>
    let ds := t.takeWhile Char.isDigit
    if ds.isEmpty then none
    else
      match stripLit "s elapsed)".data (t.dropWhile Char.isDigit) with
      | some rest => some (digitsToNat ds, rest)
      | none => none
  | _ => none

/-- Model: `re.findall(r"\((\d+)s elapsed\)", text)` as numbers. -/
def timeFindAllAux : Nat → List Char → List Nat
  | 0, _ => []
  | _ + 1, [] => []
  | fuel + 1, c :: t =>
    match timeMatchAt (c :: t) with
    | some (n, rest) => n :: timeFindAllAux fuel rest
    | none => timeFindAllAux fuel t

/-- The elapsed-second annotations found in a text. -/
def elapsedTimes (text : String) : List Nat :=
  timeFindAllAux (text.data.length + 1) text.data

/-- Model: `PoeClient.estimate_reasoning_tokens`. -/
def estimate_reasoning_tokens (text : String) : Nat :=
  if text = "" then 0
  else
    let tokensPerSecond := 75
    let tokensPerThinkingOccurrence := 40
    let charsPerToken := 4
    let l := text.data
    let fuel := l.length + 1
    let reasoningContent :=
      String.intercalate " " (reFindAllAux p1At fuel l) ++
      String.intercalate " " (reFindAllAux p2At fuel l) ++
      String.intercalate " " (reFindAllAux p3At fuel l)
    let thinkingCount := pyCount text "Thinking..."
    if thinkingCount > 0 then
      let times := elapsedTimes text
      if times ≠ [] then (times.foldl max 0) * tokensPerSecond
      else
        let rc2 := reasoningContent ++
          String.mk (List.replicate (thinkingCount * tokensPerThinkingOccurrence) ' ')
        max (rc2.length / charsPerToken) 0
    else max (reasoningContent.length / charsPerToken) 0

/-! ### poe_client.py — remove_thinking_noise -/

/-- The optional group `(?:\s*\([0-9]+s elapsed\))?` of the noise regex. -/
def rtnElapsed (l : List Char) : Option (List Char) :=
  match l.dropWhile pyWhite with
  | '(' :: t =>
    let ds := t.takeWhile Char.isDigit
    if ds.isEmpty then none
    else stripLit "s elapsed)".data (t.dropWhile Char.isDigit)
  | _ => none

/-- One match of `(?<!^\*)\bThinking\.\.\.(?:\s*\([0-9]+s elapsed\))?\s*`
    anchored at index `i` with `prev` the character at `i - 1` of the
    original string (these drive the lookbehind and the word boundary,
    which Python evaluates on the original subject of `re.sub`). -/
def rtnMatchAt (i : Nat) (prev : Option Char) (l : List Char) : Option (List Char) :=
  let boundary := match prev with
    | none => true
    | some c => !pyWord c
  if i = 1 && prev = some '*' then none
  else if !boundary then none
  else
    match stripLit "Thinking...".data l with
    | none => none
    | some l1 =>
      let l2 := match rtnElapsed l1 with
        | some r => r
        | none => l1
      some (l2.dropWhile pyWhite)

/-- Model: `re.sub` for the noise regex, tracking original index and previous
    original character. -/
def rtnSubAux : Nat → Nat → Option Char → List Char → List Char
  | 0, _, _, l => l
  | _ + 1, _, _, [] => []
  | fuel + 1, i, prev, c :: t =>
    match rtnMatchAt i prev (c :: t) with
    | some rest =>
      let k := (c :: t).length - rest.length
      rtnSubAux fuel (i + k) ((c :: t).take k).getLast? rest
    | none => c :: rtnSubAux fuel (i + 1) (some c) t

/-- Model: `re.sub(r"\s{3,}", " ", s)`. -/
def wsRun3SubAux : Nat → List Char → List Char
  | 0, l => l
  | _ + 1, [] => []
  | fuel + 1, c :: t =>
    if pyWhite c && 2 ≤ (t.takeWhile pyWhite).length then
      ' ' :: wsRun3SubAux fuel (t.dropWhile pyWhite)
    else c :: wsRun3SubAux fuel t

/-- Model: `re.sub(r"\n{3,}", "\n\n", s)`. -/
def nlRun3SubAux : Nat → List Char → List Char
  | 0, l => l
  | _ + 1, [] => []
  | fuel + 1, c :: t =>
    if c = '\n' && 2 ≤ (t.takeWhile (fun d => d = '\n')).length then
      '\n' :: '\n' :: nlRun3SubAux fuel (t.dropWhile (fun d => d = '\n'))
    else c :: nlRun3SubAux fuel t

/-- Model: `PoeClient.remove_thinking_noise`. -/
def remove_thinking_noise (raw : String) : String :=
  if raw = "" || !pyContains raw "Thinking..." then raw
  else
    let c1 := String.mk (rtnSubAux (raw.data.length + 1) 0 none raw.data)
    let c2 := String.mk (wsRun3SubAux (c1.data.length + 1) c1.data)
    let c3 := pyStrip (String.mk (nlRun3SubAux (c2.data.length + 1) c2.data))
    if c3 ≠ "" then "*Thinking...*\n\n" ++ c3
    else "*Thinking...*\n\nI\x27m thinking about your request."

/-! ### poe_client.py — message adapter

`convert_to_poe_messages` and its helpers.  Genuinely effectful collaborators
are oracles in `AdapterOracle`: `uploadLocalFile` models the
`LocalUploadFile` existence probe plus `FileManager.upload_local_file_to_poe`
(`notFound` = `FileNotFoundError`, `ioError` = `IOError`/`OSError`);
`b64decode` models the `base64.b64decode` library call (`none` = any of the
caught decode exceptions); `uploadImageBytes` models
`PoeClient._upload_image_bytes` (`none` = its `IOError`/`OSError` path).
Every oracle invocation is recorded in an `UploadCall` log so that
"no upload happened" is expressible. -/

/-- A Poe attachment handle (opaque to the adapter). -/
structure Attachment where
  url : String
deriving DecidableEq

/-- Result of probing and uploading a local file. -/
inductive UploadOutcome where
  | ok (a : Attachment)
  | notFound
  | ioError
deriving DecidableEq

/-- One recorded collaborator invocation. -/
inductive UploadCall where
  | localFile (path : String)
  | imageBytes (mime : String)
deriving DecidableEq

/-- The adapter's effectful collaborators. -/
structure AdapterOracle where
  uploadLocalFile : String → UploadOutcome
  b64decode : String → Option (List Nat)
  uploadImageBytes : List Nat → String → Option Attachment

/-- One entry of a structured (list-form) message content.  `dict` models
    the JSON dicts: `type`/`text` are the values of those keys when
    present, `imageUrl = some u` means the key `image_url` is present and
    `item["image_url"].get("url", "")` is `u`. -/
inductive ContentItem where
  | str (s : String)
  | dict (type : Option String) (text : Option String) (imageUrl : Option String)
deriving DecidableEq

/-- Model: `ChatMessage.content`: a plain string, a list of parts, or `None`. -/
inductive MsgContent where
  | strContent (s : String)
  | listContent (items : List ContentItem)
  | noContent
deriving DecidableEq

/-- Model: `models.ChatMessage` restricted to the fields the adapter reads. -/
structure PyChatMessage where
  role : String
  content : MsgContent

/-- Text produced for one item by `PoeClient._extract_text_content`. -/
def extractItemText : ContentItem → Option String
  | .str s => some s
  | .dict ty tx iu =>
    if ty = some "text" && tx.isSome then tx
    else if ty = some "image_url" && iu.isSome then
      let url := iu.getD ""
      if pyStartsWith url "data:image" then some "[Base64 image - upload not yet implemented]"
      else if pyStartsWith url "file://" then some ("[" ++ url ++ "]")
      else some ("[Image: " ++ url ++ "]")
    else if tx.isSome then tx
    else none

/-- Model: `PoeClient._extract_text_content`. -/
def extract_text_content : MsgContent → String
  | .strContent s => s
  | .listContent items => String.intercalate "\n" (items.filterMap extractItemText)
  | .noContent => ""

/-- Numeric value of a hex digit. -/
def hexVal (c : Char) : Nat :=
  if c.isDigit then c.toNat - '0'.toNat
  else if 'a' ≤ c && c ≤ 'f' then c.toNat - 'a'.toNat + 10
  else c.toNat - 'A'.toNat + 10

/-- Model: `urllib.parse.unquote`, decoding `%XX` escapes.  Multi-byte UTF-8
    escape sequences are approximated codepoint-wise; the decoded path is
    only ever passed to the upload oracle, so the approximation is inert. -/
def pyUnquoteAux : Nat → List Char → List Char
  | 0, l => l
  | _ + 1, [] => []
  | fuel + 1, '%' :: h1 :: h2 :: t =>
    if pyHexDigit h1 && pyHexDigit h2 then
      Char.ofNat (hexVal h1 * 16 + hexVal h2) :: pyUnquoteAux fuel t
    else '%' :: pyUnquoteAux fuel (h1 :: h2 :: t)
  | fuel + 1, c :: t => c :: pyUnquoteAux fuel t

/-- Model: `urllib.parse.urlparse(uri).path` followed by `unquote`, for the
    `file://` URIs the extraction regex produces. -/
def fileUriPath (uri : String) : String :=
  match stripLit "file://".data uri.data with
  | some rest =>
    let netloc := rest.takeWhile fun c => c ≠ '/' && c ≠ '?' && c ≠ '#'
    let path := (rest.drop netloc.length).takeWhile fun c => c ≠ '?' && c ≠ '#'
    String.mk (pyUnquoteAux (path.length + 1) path)
  | none => String.mk (pyUnquoteAux (uri.data.length + 1) uri.data)

/-- Model: `PoeClient._parse_data_url` (the pure part; base64 decoding is the
    oracle).  `split(",", 1)` with no comma raises `ValueError`, caught to
    `none`; the `data:(image/\w+);base64` `re.match` failure falls back to
    `image/png`. -/
def parse_data_url (oracle : AdapterOracle) (url : String) : Option (String × List Nat) :=
  match url.data.findIdx? (fun c => c = ',') with
  | none => none
  | some i =>
    let header := url.data.take i
    let b64 := String.mk (url.data.drop (i + 1))
    let mime :=
      match stripLit "data:image/".data header with
      | some r =>
        let w := r.takeWhile pyWord
        if w.isEmpty then "image/png"
        else
          match stripLit ";base64".data (r.dropWhile pyWord) with
          | some _ => "image/" ++ String.mk w
          | none => "image/png"
      | none => "image/png"
    match oracle.b64decode b64 with
    | some bytes => some (mime, bytes)
    | none => none

/-- Model: `PoeClient._handle_image_item`. -/
def handle_image_item (oracle : AdapterOracle) (item : ContentItem) :
    (Option String × Option Attachment) × List UploadCall :=
  let url := match item with
    | .dict _ _ iu => iu.getD ""
    | _ => ""
  if pyStartsWith url "data:image" then
    match parse_data_url oracle url with
    | some mb =>
      match oracle.uploadImageBytes mb.2 mb.1 with
      | some a => ((none, some a), [UploadCall.imageBytes mb.1])
      | none => ((some "[Failed to process base64 image]", none), [UploadCall.imageBytes mb.1])
    | none => ((some "[Failed to process base64 image]", none), [])
  else if pyStartsWith url "file://" then ((some ("[" ++ url ++ "]"), none), [])
  else ((some ("[Image URL: " ++ url ++ "]"), none), [])

/-- Model: `PoeClient._extract_and_upload_base64_images`. -/
def extract_and_upload_base64_images (oracle : AdapterOracle) (content : MsgContent) :
    String × List Attachment × List UploadCall :=
  match content with
  | .listContent items =>
    let step := items.foldl
      (fun (acc : List String × List Attachment × List UploadCall) item =>
        match item with
        | .str s => (acc.1 ++ [s], acc.2.1, acc.2.2)
        | .dict ty tx iu =>
          if ty = some "text" && tx.isSome then (acc.1 ++ [tx.getD ""], acc.2.1, acc.2.2)
          else if ty = some "image_url" && iu.isSome then
            let r := handle_image_item oracle item
            (acc.1 ++ (match r.1.1 with | some t => [t] | none => []),
             acc.2.1 ++ (match r.1.2 with | some a => [a] | none => []),
             acc.2.2 ++ r.2)
          else if tx.isSome then (acc.1 ++ [tx.getD ""], acc.2.1, acc.2.2)
          else acc)
      ([], [], [])
    (String.intercalate "\n" step.1, step.2.1, step.2.2)
  | .strContent s => (s, [], [])
  | .noContent => ("", [], [])

/-! The embedded-file regex `\[.*?\]\((file://.*?)\)|(file://[^\s\)]+)`
    (no DOTALL: `.` excludes newlines). -/

/-- Lazy `.*?` of the first alternative's URI group, up to the first `)`. -/
def alt1Inner : List Char → Option (List Char × List Char)
  | [] => none
  | ')' :: t => some ([], t)
  | c :: t =>
    if c = '\n' then none
    else (alt1Inner t).map fun p => (c :: p.1, p.2)

/-- The continuation check of `alt1Outer`: the rest of the first
    alternative matched directly at the current position. -/
def alt1Direct (l : List Char) : Option (String × List Char) :=
  match stripLit "](file://".data l with
  | some r =>
    match alt1Inner r with
    | some p => some ("file://" ++ String.mk p.1, p.2)
    | none => none
  | none => none

/-- Lazy `.*?` between `\[` and `\]\(`, with the rest of the first
    alternative as its continuation. -/
def alt1Outer : List Char → Option (List Char × String × List Char)
  | [] =>
    match alt1Direct [] with
    | some (uri, rest) => some ([], uri, rest)
    | none => none
  | c :: t =>
    match alt1Direct (c :: t) with
    | some (uri, rest) => some ([], uri, rest)
    | none =>
      if c = '\n' then none
      else (alt1Outer t).map fun p => (c :: p.1, p.2.1, p.2.2)

/-- First alternative `\[.*?\]\((file://.*?)\)` at the current position;
    returns (full match, URI group, rest). -/
def alt1At (l : List Char) : Option (List Char × String × List Char) :=
  match l with
  | '[' :: t =>
    match alt1Outer t with
    | some (outer, uri, rest) =>
      some ('[' :: (outer ++ ']' :: '(' :: uri.data ++ [')']), uri, rest)
    | none => none
  | _ => none

/-- Second alternative `(file://[^\s\)]+)` at the current position. -/
def alt2At (l : List Char) : Option (List Char × String × List Char) :=
  match stripLit "file://".data l with
  | some r =>
    let run := r.takeWhile fun c => !pyWhite c && c ≠ ')'
    if run.isEmpty then none
    else
      let uri := "file://" ++ String.mk run
      some (uri.data, uri, r.dropWhile fun c => !pyWhite c && c ≠ ')')
  | none => none

/-- A piece of the scanned text: an unmatched character or a full match. -/
inductive UriPiece where
  | lit (c : Char)
  | mtch (full : List Char) (uri : String)

/-- Model: `finditer` of the embedded-file regex, as pieces in document order. -/
def uriScanAux : Nat → List Char → List UriPiece
  | 0, _ => []
  | _ + 1, [] => []
  | fuel + 1, c :: t =>
    match alt1At (c :: t) with
    | some (full, uri, rest) => .mtch full uri :: uriScanAux fuel rest
    | none =>
      match alt2At (c :: t) with
      | some (full, uri, rest) => .mtch full uri :: uriScanAux fuel rest
      | none => .lit c :: uriScanAux fuel t

/-- Model: `PoeClient._extract_and_upload_attachments`.  The source walks the
    matches in reverse document order (keeping earlier spans stable while
    deleting), so the upload log is in reverse document order; a span is
    deleted exactly when its upload succeeds. -/
def extract_and_upload_attachments (oracle : AdapterOracle) (text : String) :
    String × List Attachment × List UploadCall :=
  let pieces := uriScanAux (text.data.length + 1) text.data
  let parts := pieces.map fun p =>
    match p with
    | .lit c => ([c], (none, none))
    | .mtch full uri =>
      let path := fileUriPath uri
      match oracle.uploadLocalFile path with
      | .ok a => (([] : List Char), (some a, some (UploadCall.localFile path)))
      | .notFound => (full, (none, some (UploadCall.localFile path)))
      | .ioError => (full, (none, some (UploadCall.localFile path)))
  (pyStrip (String.mk (parts.map (·.1)).flatten),
   parts.filterMap (·.2.1),
   (parts.filterMap (·.2.2)).reverse)

/-- A Poe protocol message as built by the adapter. -/
structure ProtocolMessage where
  role : String
  content : String
  attachments : List Attachment
deriving DecidableEq

/-- The role translation dict (`assistant → bot`, default `user`). -/
def roleMapping (role : String) : String :=
  if role = "assistant" then "bot"
  else if role = "user" then "user"
  else if role = "system" then "system"
  else "user"

/-- The per-message body of the conversion loop. -/
def convertOne (oracle : AdapterOracle) (msg : PyChatMessage) :
    ProtocolMessage × List Attachment × List UploadCall :=
  let b := extract_and_upload_base64_images oracle msg.content
  let textContent := if b.2.1 ≠ [] then b.1 else extract_text_content msg.content
  let e := extract_and_upload_attachments oracle textContent
  let textContent2 := if e.2.1 ≠ [] then e.1 else textContent
  ({ role := roleMapping msg.role, content := textContent2, attachments := [] },
   b.2.1 ++ e.2.1, b.2.2 ++ e.2.2)

/-- Model: `exceptions.PoeAPIError` restricted to the fields the adapter sets. -/
structure PoeAPIErrorData where
  message : String
  statusCode : Nat
deriving DecidableEq

/-- Index of the last message whose (already translated) role is `user`,
    the backwards scan of the source. -/
def lastUserIdx : List ProtocolMessage → Option Nat
  | [] => none
  | m :: t =>
    match lastUserIdx t with
    | some i => some (i + 1)
    | none => if m.role = "user" then some 0 else none

/-- In-place `poe_messages[i].attachments = all_attachments`. -/
def setMsgAttachments : List ProtocolMessage → Nat → List Attachment → List ProtocolMessage
  | [], _, _ => []
  | m :: t, 0, a => { m with attachments := a } :: t
  | m :: t, i + 1, a => m :: setMsgAttachments t i a

/-- The attachment-placement epilogue of `convert_to_poe_messages`. -/
def placeAttachments (pms : List ProtocolMessage) (allAtts : List Attachment) :
    List ProtocolMessage :=
  if allAtts = [] then pms
  else
    match lastUserIdx pms with
    | some i => setMsgAttachments pms i allAtts
    | none => setMsgAttachments pms (pms.length - 1) allAtts

/-- Model: `PoeClient.convert_to_poe_messages`, returning the structured error of
    the empty-conversation guard or the built messages, paired with the
    log of collaborator calls made along the way. -/
def convert_to_poe_messages (oracle : AdapterOracle) (messages : List PyChatMessage)
    (attachments : List Attachment) :
    Except PoeAPIErrorData (List ProtocolMessage) × List UploadCall :=
  if messages.isEmpty then (.error { message := "At least one message is required.", statusCode := 400 }, [])
  else
    let steps := messages.map (convertOne oracle)
    let pms := steps.map (·.1)
    let allAtts := (steps.map (·.2.1)).flatten ++ attachments
    let log := (steps.map (·.2.2)).flatten
    (.ok (placeAttachments pms allAtts), log)

/-! ### api.py — streaming translator

`APIHandler._handle_streaming_partial`, `_handle_thinking_pattern`,
`_handle_tool_streaming` and the `stream_generator` body of
`create_streaming_response`.  Outbound SSE chunks are modelled by the
fields the source actually varies (`delta.content`, `delta.tool_calls`,
`finish_reason`, the error payload, and the `data: [DONE]` sentinel);
`id`/`model`/`created` boilerplate carries no claim content.  The native
tool path delegates to `NativeToolHandler.extract_tool_calls_from_message`,
which inspects backend-SDK objects and is therefore an oracle. -/

/-- One unit of the backend stream (`fp.PartialResponse` as the translator
    reads it, plus `MetaResponse`).  `errorType = some ""` is falsy in the
    source's `if partial.error_type:` test, like `none`. -/
structure PartialEvent where
  errorType : Option String := none
  isMeta : Bool := false
  attachmentUrl : Option String := none
  text : Option String := none

/-- One outbound SSE event. -/
inductive OutChunk where
  | errorChunk (message : String) (errorType : String)
  | content (s : String)
  | toolDelta (index : Nat) (id : String) (name : String) (arguments : String)
  | finish (reason : String)
  | done
deriving DecidableEq

/-- The per-request mutable state of `stream_generator`:
    `accumulated_content`, `thinking_state`, `tool_state` and the index of
    the next fresh uuid (threaded id supply). -/
structure StreamState where
  accumulated : List String
  thinkingStarted : Bool
  thinkingFinished : Bool
  buffer : String
  finishReason : String
  uuidCtr : Nat

/-- Initial state (`accumulated_content = []`,
    `thinking_state = {"started": False, "finished": False}`,
    `tool_state = {"buffer": "", "finish_reason": "stop"}`). -/
def initialStreamState : StreamState :=
  { accumulated := [], thinkingStarted := false, thinkingFinished := false,
    buffer := "", finishReason := "stop", uuidCtr := 0 }

/-- Static request configuration: whether `request.tools` is non-empty,
    whether the native tool path was chosen, the uuid stream, and the
    native-extraction oracle. -/
structure StreamCfg where
  hasTools : Bool
  useNativeTools : Bool
  supply : Nat → String
  nativeExtract : PartialEvent → List StreamToolCallDelta

/-- Offset view of the uuid supply. -/
def shiftSupply (supply : Nat → String) (n : Nat) : Nat → String :=
  fun k => supply (n + k)

/-- Model: `APIHandler._handle_thinking_pattern`. -/
def handle_thinking_pattern (st : StreamState) : StreamState × List OutChunk :=
  if !st.thinkingStarted then
    ({ st with thinkingStarted := true }, [.content "*Thinking...*"])
  else (st, [])

/-- Model: `APIHandler._handle_tool_streaming`. -/
def handle_tool_streaming (cfg : StreamCfg) (st : StreamState) (p : PartialEvent)
    (t : String) : StreamState × List OutChunk :=
  if cfg.useNativeTools then
    let natives := cfg.nativeExtract p
    if natives ≠ [] then
      ({ st with finishReason := "tool_calls" },
       natives.map fun c => OutChunk.toolDelta c.index c.id c.name c.arguments)
    else if t ≠ "" then (st, [.content t])
    else (st, [])
  else
    let r := extract_tool_calls_from_stream (shiftSupply cfg.supply st.uuidCtr) t st.buffer
    let st1 := { st with buffer := r.2.2, uuidCtr := st.uuidCtr + r.2.1.length }
    let st2 := if r.2.1 ≠ [] then { st1 with finishReason := "tool_calls" } else st1
    (st2, r.2.1.map (fun c => OutChunk.toolDelta c.index c.id c.name c.arguments) ++
          (if r.1 ≠ "" then [.content r.1] else []))

/-- Model: `APIHandler._handle_streaming_partial`: translate one backend event,
    returning the new state and the chunks yielded for it. -/
def handle_streaming_partial_event (cfg : StreamCfg) (st : StreamState) (p : PartialEvent) :
    StreamState × List OutChunk :=
  if (p.errorType.getD "") ≠ "" then
    (st, [.errorChunk (p.text.getD "An error occurred") (p.errorType.getD ""), .done])
  else if p.isMeta then (st, [])
  else
    match p.attachmentUrl with
    | some url =>
      let attachmentText := "\n![Image](" ++ url ++ ")\n"
      ({ st with accumulated := st.accumulated ++ [attachmentText] }, [.content attachmentText])
    | none =>
      match p.text with
      | none => (st, [])
      | some t =>
        if t = "" then (st, [])
        else
          let st1 := { st with accumulated := st.accumulated ++ [t] }
          if pyContains t "Thinking..." &&
              !pyStartsWith (String.join st1.accumulated) "*Thinking...*" then
            handle_thinking_pattern st1
          else
            let sepStep : StreamState × List OutChunk :=
              if st1.thinkingStarted && !st1.thinkingFinished then
                ({ st1 with thinkingFinished := true }, [.content "\n\n"])
              else (st1, [])
            if cfg.hasTools then
              let r := handle_tool_streaming cfg sepStep.1 p t
              (r.1, sepStep.2 ++ r.2)
            else (sepStep.1, sepStep.2 ++ [.content t])

/-- Fold of `_handle_streaming_partial` over the backend events, in
    arrival order.  Note that the source's error branch `return`s only out
    of the per-event helper: the surrounding `async for` keeps consuming. -/
def runPartials (cfg : StreamCfg) : StreamState → List PartialEvent → StreamState × List OutChunk
  | st, [] => (st, [])
  | st, p :: ps =>
    let r := handle_streaming_partial_event cfg st p
    let rest := runPartials cfg r.1 ps
    (rest.1, r.2 ++ rest.2)

/-- The body of `create_streaming_response.stream_generator` after the
    backend stream is opened: translate every event, run the final
    buffered-tool-call check, then emit the terminal delta chunk and the
    `data: [DONE]` sentinel. -/
def stream_generator (cfg : StreamCfg) (partials : List PartialEvent) : List OutChunk :=
  let r := runPartials cfg initialStreamState partials
  let st := r.1
  let finishReason :=
    if cfg.hasTools && st.buffer ≠ "" then
      if (parse_tool_calls (shiftSupply cfg.supply st.uuidCtr)
            (String.join st.accumulated)).2 ≠ [] then "tool_calls"
      else st.finishReason
    else st.finishReason
  r.2 ++ [.finish finishReason, .done]

/-! ### tool_handler.py — tool directive injection

`inject_tools_into_messages`, `_build_tools_xml`,
`_build_tool_instructions`.  The `parameters` dict of a tool (the
`model_dump` of `FunctionParameters`) is modelled as a generic JSON value
with the compact `json.dumps(..., separators=(",", ":"))` rendering. -/

/-- A JSON value (numbers restricted to integers; the tool schemas the
    source serializes contain no floats). -/
inductive PyJson where
  | null
  | bool (b : Bool)
  | num (n : Int)
  | str (s : String)
  | arr (elts : List PyJson)
  | obj (fields : List (String × PyJson))

mutual

/-- Model: `json.dumps` with `separators=(",", ":")`. -/
def pyJsonDumps : PyJson → String
  | .null => "null"
  | .bool b => if b then "true" else "false"
  | .num n => toString n
  | .str s => pyDumpsStr s
  | .arr elts => "[" ++ pyJsonDumpsElts elts ++ "]"
  | .obj fields => "\x7b" ++ pyJsonDumpsFields fields ++ "\x7d"

/-- Comma-joined array elements. -/
def pyJsonDumpsElts : List PyJson → String
  | [] => ""
  | [x] => pyJsonDumps x
  | x :: y :: t => pyJsonDumps x ++ "," ++ pyJsonDumpsElts (y :: t)

/-- Comma-joined `"key":value` members. -/
def pyJsonDumpsFields : List (String × PyJson) → String
  | [] => ""
  | [(k, v)] => pyDumpsStr k ++ ":" ++ pyJsonDumps v
  | (k, v) :: kv :: t => pyDumpsStr k ++ ":" ++ pyJsonDumps v ++ "," ++ pyJsonDumpsFields (kv :: t)

end

/-- Python truthiness of a JSON value (`if parameters:`). -/
def pyJsonTruthy : PyJson → Bool
  | .null => false
  | .bool b => b
  | .num n => decide (n ≠ 0)
  | .str s => decide (s ≠ "")
  | .arr l => !l.isEmpty
  | .obj l => !l.isEmpty

/-- Model: `models.FunctionDefinition` restricted to the fields the builder reads;
    `parameters` is the `model_dump` of the pydantic sub-model when present. -/
structure FunctionDefinition where
  name : String
  description : Option String
  parameters : Option PyJson

/-- Model: `models.ChatCompletionFunctionTool` restricted to the field read. -/
structure ChatCompletionFunctionTool where
  function : Option FunctionDefinition

/-- XML lines contributed by one tool in `_build_tools_xml`. -/
def toolXmlParts (t : ChatCompletionFunctionTool) : List String :=
  match t.function with
  | none => []
  | some f =>
    let descPart := match f.description with
      | some d => if d ≠ "" then ["<description>" ++ d ++ "</description>"] else []
      | none => []
    let paramPart := match f.parameters with
      | some ps =>
        if pyJsonTruthy ps then ["<parameters>" ++ pyJsonDumps ps ++ "</parameters>"] else []
      | none => []
    ("<tool name=\"" ++ f.name ++ "\">") :: (descPart ++ paramPart ++ ["</tool>"])

/-- Model: `ToolCallHandler._build_tools_xml`. -/
def build_tools_xml (tools : List ChatCompletionFunctionTool) : String :=
  String.intercalate "\n" ("<tools>" :: ((tools.map toolXmlParts).flatten ++ ["</tools>"]))

/-- The `tool_choice` request parameter: a bare string or a dict with a
    `type` and a `function.name` (either possibly missing). -/
inductive ToolChoiceOption where
  | str (v : String)
  | funcDict (type : Option String) (funcName : Option String)

/-- Model: `ToolCallHandler._build_tool_instructions`. -/
def build_tool_instructions (tc : Option ToolChoiceOption) : String :=
  let defaultInstr := "Use tools when appropriate to help answer the user\x27s request."
  match tc with
  | some (.str v) =>
    if v = "none" then
      "IMPORTANT: You are FORBIDDEN from using any tools. Do NOT use <tool_call> tags. Respond directly with natural language only."
    else if v = "required" then "You MUST use at least one tool to answer this request."
    else defaultInstr
  | some (.funcDict ty fn) =>
    if ty = some "function" then
      "You MUST use the \x27" ++ fn.getD "" ++ "\x27 function to answer this request."
    else defaultInstr
  | none => defaultInstr

/-- The `tool_prompt` f-string of `inject_tools_into_messages`. -/
def toolPrompt (tools : List ChatCompletionFunctionTool) (tc : Option ToolChoiceOption) : String :=
  "\n" ++ build_tools_xml tools ++ "\n\n" ++ build_tool_instructions tc ++
  "\n\nWhen using tools, respond with XML in this exact format:\n<tool_call>\n<name>function_name</name>\n<arguments>\x7b\"param\": \"value\"\x7d</arguments>\n</tool_call>\n\nYou can make multiple tool calls by using multiple <tool_call> blocks.\nIMPORTANT: After using tools, do NOT include the XML tags in your final response to the user.\n"

/-- One entry of the `messages_list` dicts handed to the injector.
    `msg.model_dump()` always yields a string `role` and a `content` key
    whose value is the dumped `ChatMessage.content`: a plain string, a
    list of content parts, or `None` — the same three shapes as
    `MsgContent` (the `.get("content", "")` default in the source never
    fires because `model_dump` always emits the key). -/
structure DictMessage where
  role : String
  content : MsgContent
deriving DecidableEq

/-- Index of the first message whose role is `system` (the search loop). -/
def firstSystemIdx : List DictMessage → Option Nat
  | [] => none
  | m :: t =>
    if m.role = "system" then some 0
    else (firstSystemIdx t).map (· + 1)

/-- Python `tool_prompt + "\n\n" + value` for the dumped content `value`:
    defined only when `value` is a string; a `None` or list-of-parts value
    makes the concatenation raise `TypeError` (`none` here). -/
def prependToContent (p : String) (c : MsgContent) : Option String :=
  match c with
  | .strContent s => some (p ++ "\n\n" ++ s)
  | .listContent _ => none
  | .noContent => none

/-- In-place `messages[i]["content"] = tool_prompt + "\n\n" + messages[i].get("content", "")`;
    `none` models the uncaught `TypeError` when that message's content is
    not a string. -/
def prependContentAt : List DictMessage → Nat → String → Option (List DictMessage)
  | [], _, _ => some []
  | m :: t, 0, p =>
    match prependToContent p m.content with
    | some c => some ({ m with content := .strContent c } :: t)
    | none => none
  | m :: t, i + 1, p => (prependContentAt t i p).map (m :: ·)

/-- Model: `ToolCallHandler.inject_tools_into_messages` (`if not tools:` is true
    for both `None` and `[]`); `none` models the `TypeError` escaping when
    the selected system message carries non-string content. -/
def inject_tools_into_messages (messages : List DictMessage)
    (tools : Option (List ChatCompletionFunctionTool))
    (toolChoice : Option ToolChoiceOption) : Option (List DictMessage) :=
  match tools with
  | none => some messages
  | some [] => some messages
  | some (t :: ts) =>
    let p := toolPrompt (t :: ts) toolChoice
    match firstSystemIdx messages with
    | some i => prependContentAt messages i p
    | none => some ({ role := "system", content := .strContent p } :: messages)

/-! ## Claim theorems -/

/-- C10: `remove_thinking_noise` is the identity on marker-free input: any
    string that does not contain the substring `"Thinking..."` (including
    the empty string) is returned unchanged. -/
theorem c10_remove_thinking_noise_identity_on_marker_free (raw : String)
    (h : pyContains raw "Thinking..." = false) :
    remove_thinking_noise raw = raw := by
  simp [remove_thinking_noise, h]

/-- Witness for C10 at the concrete marker-free input `"The answer is 4"`. -/
theorem c10_witness :
    pyContains "The answer is 4" "Thinking..." = false ∧
    remove_thinking_noise "The answer is 4" = "The answer is 4" :=
  ⟨by decide, c10_remove_thinking_noise_identity_on_marker_free "The answer is 4" (by decide)⟩

/-- C6: for the empty conversation, `convert_to_poe_messages` returns the
    structured `PoeAPIError` with status 400 and performs no upload (the
    collaborator log is empty), for every oracle and every explicit
    attachment list — the rejection precedes all collaborator activity and
    the backend call made later by the caller. -/
theorem c6_empty_conversation_rejected (oracle : AdapterOracle) (attachments : List Attachment) :
    convert_to_poe_messages oracle [] attachments =
      (.error { message := "At least one message is required.", statusCode := 400 }, []) :=
  rfl

/-- C1 failing input: a backend stream consisting of exactly one error
    event.  The translator emits the error chunk and a terminal sentinel
    but the generator loop then keeps going: it appends a finish-reason
    chunk and a second terminal sentinel, and when further events follow
    the error they are still translated (second conjunct). -/
theorem c1_error_event_not_fail_fast :
    stream_generator ⟨false, false, fun _ => "", fun _ => []⟩
      [{ errorType := some "server_error", text := some "boom" }] =
      [.errorChunk "boom" "server_error", .done, .finish "stop", .done] ∧
    stream_generator ⟨false, false, fun _ => "", fun _ => []⟩
      [{ errorType := some "server_error", text := some "boom" }, { text := some "hi" }] =
      [.errorChunk "boom" "server_error", .done, .content "hi", .finish "stop", .done] := by
  exact ⟨by decide, by decide⟩

/-! ### Helper lemmas: `json.dumps` output is always `json.loads`-valid -/

/-- Every output of `hexDigitChar` on a reduced value is a hex digit. -/
theorem pyHexDigit_hexDigitChar : ∀ k, k < 16 → pyHexDigit (hexDigitChar k) = true := by
  decide

/-- The string-body scanner consumes one `\uXXXX` escape. -/
theorem parseJsonStringBody_u (a b c d : Char) (Y : List Char)
    (ha : pyHexDigit a = true) (hb : pyHexDigit b = true)
    (hc : pyHexDigit c = true) (hd : pyHexDigit d = true) :
    parseJsonStringBody ('\\' :: 'u' :: a :: b :: c :: d :: Y) = parseJsonStringBody Y := by
  rw [parseJsonStringBody.eq_def]
  simp [ha, hb, hc, hd]

/-- The string-body scanner consumes the encoding of one character. -/
theorem parseJsonStringBody_enc (c : Char) (X : List Char) :
    parseJsonStringBody (encJsonChar c ++ X) = parseJsonStringBody X := by
  have hx : ∀ n : Nat, pyHexDigit (hexDigitChar (n % 16)) = true := fun n =>
    pyHexDigit_hexDigitChar _ (Nat.mod_lt _ (by norm_num))
  unfold encJsonChar
  split_ifs with h1 h2 h3 h4 h5 h6 h7 h8 h9
  · rw [parseJsonStringBody.eq_def]; simp
  · rw [parseJsonStringBody.eq_def]; simp
  · rw [parseJsonStringBody.eq_def]; simp
  · rw [parseJsonStringBody.eq_def]; simp
  · rw [parseJsonStringBody.eq_def]; simp
  · rw [parseJsonStringBody.eq_def]; simp
  · rw [parseJsonStringBody.eq_def]; simp
  · simp only [Bool.and_eq_true, decide_eq_true_eq] at h8
    rw [parseJsonStringBody.eq_def]
    simp [h1, h2, h8.1]
  · simp only [hex4, List.cons_append, List.nil_append]
    rw [parseJsonStringBody_u _ _ _ _ _ (hx _) (hx _) (hx _) (hx _)]
  · simp only [hex4, List.cons_append, List.append_assoc, List.nil_append]
    rw [parseJsonStringBody_u _ _ _ _ _ (hx _) (hx _) (hx _) (hx _),
      parseJsonStringBody_u _ _ _ _ _ (hx _) (hx _) (hx _) (hx _)]

/-- The string-body scanner accepts any fully encoded character list up to
    the closing quote. -/
theorem parseJsonStringBody_foldr (cs : List Char) (rest : List Char) :
    parseJsonStringBody (cs.foldr (fun c acc => encJsonChar c ++ acc) ('"' :: rest)) =
      some rest := by
  induction cs with
  | nil => rw [parseJsonStringBody.eq_def]; simp
  | cons c cs ih => simpa [parseJsonStringBody_enc] using ih

/-- Model: `json.dumps` of any Python string is accepted by `json.loads`. -/
theorem pyJsonValid_pyDumpsStr (s : String) : pyJsonValid (pyDumpsStr s) = true := by
  have hbody := parseJsonStringBody_foldr s.data []
  simp only [pyJsonValid, pyDumpsStr]
  rw [parseJsonValue.eq_def]
  simp [skipJsonWs, jsonWs, hbody]

/-- C3: for every response text, `parse_tool_calls` returns exactly one
    `ToolCall` per regex match (the well-formed `<tool_call>` blocks), the
    ids are pairwise distinct whenever the truncated uuid supply is
    collision-free on the indices used, every returned `arguments` string
    is valid JSON, and names/arguments come verbatim from the matched
    groups (stripped), arguments being kept as-is exactly when they
    already validate. -/
theorem c3_parse_tool_calls_roundtrip (supply : Nat → String) (content : String)
    (hinj : ∀ i j, i < (tcScan content.data).2.length → j < (tcScan content.data).2.length →
      "call_" ++ (supply i).take 24 = "call_" ++ (supply j).take 24 → i = j) :
    (parse_tool_calls supply content).2.length = (tcScan content.data).2.length ∧
    ((parse_tool_calls supply content).2.map (fun c => c.id)).Nodup ∧
    (∀ c ∈ (parse_tool_calls supply content).2, pyJsonValid c.arguments = true) ∧
    (parse_tool_calls supply content).2.map (fun c => c.name) =
      (tcScan content.data).2.map (fun m => pyStrip (String.mk m.1)) ∧
    (parse_tool_calls supply content).2.map (fun c => c.arguments) =
      (tcScan content.data).2.map (fun m =>
        let a := pyStrip (String.mk m.2)
        if pyJsonValid a then a else fix_json_arguments a) := by
  by_cases hempty : content = ""
  · subst hempty
    refine ⟨rfl, by simp [parse_tool_calls], by simp [parse_tool_calls], rfl, rfl⟩
  · by_cases hms : (tcScan content.data).2 = []
    · rw [parse_tool_calls, if_neg hempty, if_pos hms, hms]
      exact ⟨rfl, by simp, by simp, rfl, rfl⟩
    · have hcalls : (parse_tool_calls supply content).2 =
          (tcScan content.data).2.enum.map fun km =>
            { id := "call_" ++ (supply km.1).take 24
              name := pyStrip (String.mk km.2.1)
              arguments :=
                let a := pyStrip (String.mk km.2.2)
                if pyJsonValid a then a else fix_json_arguments a
              : ChatCompletionMessageToolCall } := by
        rw [parse_tool_calls, if_neg hempty, if_neg hms]
      refine ⟨?_, ?_, ?_, ?_, ?_⟩
      · simp [hcalls]
      · have hmapid : ((parse_tool_calls supply content).2.map (fun c => c.id)) =
            (List.range (tcScan content.data).2.length).map
              (fun i => "call_" ++ (supply i).take 24) := by
          rw [hcalls, List.map_map]
          conv_rhs => rw [← List.enum_map_fst (tcScan content.data).2, List.map_map]
          rfl
        rw [hmapid]
        refine List.Nodup.map_on ?_ (List.nodup_range _)
        intro i hi j hj hij
        exact hinj i j (List.mem_range.mp hi) (List.mem_range.mp hj) hij
      · intro c hc
        rw [hcalls] at hc
        obtain ⟨km, _, rfl⟩ := List.mem_map.mp hc
        by_cases hv : pyJsonValid (pyStrip (String.mk km.2.2)) = true
        · simp [hv]
        · simp only [Bool.not_eq_true] at hv
          simp only [hv, if_false, Bool.false_eq_true]
          rw [fix_json_arguments]
          split
          · rename_i h
            exact h
          · exact pyJsonValid_pyDumpsStr _
      · rw [hcalls, List.map_map]
        conv_rhs => rw [← List.enum_map_snd (tcScan content.data).2, List.map_map]
        rfl
      · rw [hcalls, List.map_map]
        conv_rhs => rw [← List.enum_map_snd (tcScan content.data).2, List.map_map]
        rfl

/-- Concrete two-block response text for the C3 witness: the first block
    carries already-valid JSON arguments, the second carries arguments that
    need the repair path. -/
def c3WitnessContent : String :=
  "x <tool_call><name>a</name><arguments>\x7b\x7d</arguments></tool_call> y <tool_call><name>b</name><arguments>bad:1</arguments></tool_call> z"

/-- Witness for C3 at a concrete text and uuid supply. -/
theorem c3_witness :
    (parse_tool_calls (fun k => toString k) c3WitnessContent).2.length =
      (tcScan c3WitnessContent.data).2.length ∧
    ((parse_tool_calls (fun k => toString k) c3WitnessContent).2.map (fun c => c.id)).Nodup ∧
    (∀ c ∈ (parse_tool_calls (fun k => toString k) c3WitnessContent).2,
      pyJsonValid c.arguments = true) ∧
    (parse_tool_calls (fun k => toString k) c3WitnessContent).2.map (fun c => c.name) =
      (tcScan c3WitnessContent.data).2.map (fun m => pyStrip (String.mk m.1)) ∧
    (parse_tool_calls (fun k => toString k) c3WitnessContent).2.map (fun c => c.arguments) =
      (tcScan c3WitnessContent.data).2.map (fun m =>
        let a := pyStrip (String.mk m.2)
        if pyJsonValid a then a else fix_json_arguments a) :=
  c3_parse_tool_calls_roundtrip (fun k => toString k) c3WitnessContent (by
    have hn : (tcScan c3WitnessContent.data).2.length = 2 := by decide
    intro i j hi hj
    rw [hn] at hi hj
    interval_cases i <;> interval_cases j <;> decide)

/-- Model: `stripLit` fails exactly when the literal is not a prefix. -/
theorem stripLit_of_not_prefix (pat l : List Char) (h : listPrefix pat l = false) :
    stripLit pat l = none := by
  induction pat generalizing l with
  | nil => simp [listPrefix, List.isPrefixOf] at h
  | cons c cs ih =>
    cases l with
    | nil => rfl
    | cons x xs =>
      simp only [listPrefix, List.isPrefixOf, Bool.and_eq_false_iff] at h
      rcases h with h | h
      · rw [stripLit, if_neg]
        intro hxc
        subst hxc
        simp at h
      · by_cases hxc : x = c
        · rw [stripLit, if_pos hxc]
          exact ih xs (by simpa [listPrefix] using h)
        · rw [stripLit, if_neg hxc]

/-- A tool-call match can only start where the literal `<tool_call>` is. -/
theorem tcMatchAt_of_not_prefix (l : List Char)
    (h : listPrefix "<tool_call>".data l = false) : tcMatchAt l = none := by
  rw [tcMatchAt, stripLit_of_not_prefix _ _ h]

/-- On text with no `<tool_call>` substring the scanner finds no matches
    and keeps the text unchanged. -/
theorem tcScanAux_no_opener (fuel : Nat) :
    ∀ l, listContains "<tool_call>".data l = false → tcScanAux fuel l = (l, []) := by
  induction fuel with
  | zero => intro l _; rfl
  | succ n ih =>
    intro l h
    cases l with
    | nil => rfl
    | cons c t =>
      rw [listContains, Bool.or_eq_false_iff] at h
      rw [tcScanAux, tcMatchAt_of_not_prefix _ h.1, ih t h.2]

/-- C9 amended: `parse_tool_calls` leaves any text containing no
    `<tool_call>` substring unchanged and returns no calls; in particular
    re-parsing the cleaned output is the identity whenever that output
    holds no residual tag.  (The unamended idempotence claim fails: see the
    counterexample, where deleting a matched block splices the remaining
    fragments into a new well-formed block.) -/
theorem c9_parse_tool_calls_identity_without_opener (supply : Nat → String) (s : String)
    (h : pyContains s "<tool_call>" = false) :
    parse_tool_calls supply s = (s, []) := by
  have hscan : tcScan s.data = (s.data, []) :=
    tcScanAux_no_opener _ s.data h
  by_cases hs : s = ""
  · simp [parse_tool_calls, hs]
  · rw [parse_tool_calls, if_neg hs]
    simp [hscan]

/-- Witness for the amended C9 statement on a concrete tag-free text. -/
theorem c9_witness :
    pyContains "plain answer" "<tool_call>" = false ∧
    parse_tool_calls (fun _ => "u") "plain answer" = ("plain answer", []) :=
  ⟨by decide, c9_parse_tool_calls_identity_without_opener (fun _ => "u") "plain answer" (by decide)⟩

/-- Input on which the full-text parser is not idempotent: removing the
    single matched block (the inner one) splices the leftover `<tool_call>`
    prefix and the trailing fragment into a new well-formed block. -/
def c9Content : String :=
  "<tool_call><tool_call><name>a</name><arguments>\x7b\x7d</arguments></tool_call><name>b</name><arguments>\x7b\x7d</arguments></tool_call>"

/-- C9 counterexample: at `c9Content` the first pass returns a cleaned
    output that still contains a complete block, so the second pass strips
    it and returns one further call — the claimed idempotence fails. -/
theorem c9_counterexample :
    (parse_tool_calls (fun _ => "u") c9Content).1 =
      "<tool_call><name>b</name><arguments>\x7b\x7d</arguments></tool_call>" ∧
    parse_tool_calls (fun _ => "u") ((parse_tool_calls (fun _ => "u") c9Content).1) =
      ("", [{ id := "call_u", name := "b", arguments := "\x7b\x7d" }]) ∧
    parse_tool_calls (fun _ => "u") ((parse_tool_calls (fun _ => "u") c9Content).1) ≠
      (((parse_tool_calls (fun _ => "u") c9Content).1), []) := by
  refine ⟨by decide, by decide, by decide⟩

/-- C7 counterexample: a text that carries the elapsed-time annotation
    `(3s elapsed)` but no `"Thinking..."` occurrence.  The claim demands
    the estimate `3 * 75 = 225`; the code only takes the elapsed-time path
    when the text also contains the literal `"Thinking..."`, and falls back
    to character counting, which yields `0` here. -/
theorem c7_counterexample :
    elapsedTimes "(3s elapsed)" = [3] ∧
    estimate_reasoning_tokens "(3s elapsed)" = 0 ∧
    estimate_reasoning_tokens "(3s elapsed)" ≠ 3 * 75 := by
  refine ⟨by decide, by decide, by decide⟩

/-- C7 amended: when the text contains at least one `"Thinking..."`
    occurrence and at least one `(Ns elapsed)` annotation, the estimate is
    the maximum elapsed seconds times the fixed 75 tokens-per-second
    constant (character counting is not used); and on the spec scenario
    text the estimate is `3 * 75`. -/
theorem c7_estimate_reasoning_tokens_elapsed :
    (∀ text : String, 0 < pyCount text "Thinking..." → elapsedTimes text ≠ [] →
      estimate_reasoning_tokens text = ((elapsedTimes text).foldl max 0) * 75) ∧
    estimate_reasoning_tokens "Thinking... (3s elapsed)" = 3 * 75 := by
  constructor
  · intro text hth ht
    have hne : text ≠ "" := by
      intro hempty
      rw [hempty] at hth
      simp [pyCount, listCountAux] at hth
    rw [estimate_reasoning_tokens, if_neg hne]
    simp only [hth, if_pos, ht, if_true, if_pos ht]
  · decide

/-- Witness for the amended C7 statement on the spec's scenario text. -/
theorem c7_witness :
    0 < pyCount "Thinking... (3s elapsed)" "Thinking..." ∧
    elapsedTimes "Thinking... (3s elapsed)" ≠ [] ∧
    estimate_reasoning_tokens "Thinking... (3s elapsed)" =
      ((elapsedTimes "Thinking... (3s elapsed)").foldl max 0) * 75 :=
  ⟨by decide, by decide,
    c7_estimate_reasoning_tokens_elapsed.1 "Thinking... (3s elapsed)" (by decide) (by decide)⟩

/-! ### Helper lemmas for the tool directive injector -/

theorem prependContentAt_some_spec (l : List DictMessage) (i : Nat) (p : String)
    (out : List DictMessage) (h : prependContentAt l i p = some out) :
    out.length = l.length ∧ (∀ j, j ≠ i → out.get? j = l.get? j) ∧
    ∀ m0, l.get? i = some m0 → ∃ s, m0.content = .strContent s ∧
      out.get? i = some { role := m0.role, content := .strContent (p ++ "\n\n" ++ s) } := by
  induction l generalizing i out with
  | nil =>
    simp only [prependContentAt, Option.some.injEq] at h
    subst h
    exact ⟨rfl, fun j hj => rfl, fun m0 hm0 => by simp at hm0⟩
  | cons m t ih =>
    cases i with
    | zero =>
      rw [prependContentAt] at h
      cases hc : prependToContent p m.content with
      | none => rw [hc] at h; simp at h
      | some c =>
        rw [hc] at h
        simp only [Option.some.injEq] at h
        subst h
        cases hmc : m.content with
        | strContent s =>
          rw [hmc] at hc
          simp only [prependToContent, Option.some.injEq] at hc
          subst hc
          refine ⟨by simp, ?_, ?_⟩
          · intro j hj
            cases j with
            | zero => exact absurd rfl hj
            | succ k => simp
          · intro m0 hm0
            simp only [List.get?] at hm0
            cases hm0
            exact ⟨s, hmc, rfl⟩
        | listContent items => rw [hmc] at hc; simp [prependToContent] at hc
        | noContent => rw [hmc] at hc; simp [prependToContent] at hc
    | succ i2 =>
      rw [prependContentAt] at h
      cases hr : prependContentAt t i2 p with
      | none => rw [hr] at h; simp at h
      | some out2 =>
        rw [hr] at h
        simp only [Option.map_some', Option.some.injEq] at h
        subst h
        obtain ⟨hl, hne, hi⟩ := ih i2 out2 hr
        refine ⟨by simp [hl], ?_, ?_⟩
        · intro j hj
          cases j with
          | zero => rfl
          | succ k => simpa using hne k (fun hh => hj (by rw [hh]))
        · intro m0 hm0
          obtain ⟨s, hs, hout⟩ := hi m0 (by simpa using hm0)
          exact ⟨s, hs, by simpa using hout⟩

theorem prependContentAt_succeeds (l : List DictMessage) (i : Nat) (p : String)
    (m0 : DictMessage) (s : String) (hget : l.get? i = some m0)
    (hc : m0.content = .strContent s) : ∃ out, prependContentAt l i p = some out := by
  induction l generalizing i with
  | nil => simp at hget
  | cons m t ih =>
    cases i with
    | zero =>
      simp only [List.get?] at hget
      cases hget
      exact ⟨_, by rw [prependContentAt, hc]; rfl⟩
    | succ i2 =>
      obtain ⟨out, hout⟩ := ih i2 (by simpa using hget)
      exact ⟨m :: out, by rw [prependContentAt, hout]; rfl⟩

theorem prependContentAt_fails (l : List DictMessage) (i : Nat) (p : String)
    (m0 : DictMessage) (hget : l.get? i = some m0)
    (hc : prependToContent p m0.content = none) : prependContentAt l i p = none := by
  induction l generalizing i with
  | nil => simp at hget
  | cons m t ih =>
    cases i with
    | zero =>
      simp only [List.get?] at hget
      cases hget
      rw [prependContentAt, hc]
    | succ i2 =>
      rw [prependContentAt, ih i2 (by simpa using hget)]
      rfl

theorem firstSystemIdx_prependContentAt_some (l : List DictMessage) (i : Nat) (p : String)
    (out : List DictMessage) (h : prependContentAt l i p = some out) :
    firstSystemIdx out = firstSystemIdx l := by
  induction l generalizing i out with
  | nil =>
    simp only [prependContentAt, Option.some.injEq] at h
    subst h
    rfl
  | cons m t ih =>
    cases i with
    | zero =>
      rw [prependContentAt] at h
      cases hc : prependToContent p m.content with
      | none => rw [hc] at h; simp at h
      | some c =>
        rw [hc] at h
        simp only [Option.some.injEq] at h
        subst h
        simp [firstSystemIdx]
    | succ i2 =>
      rw [prependContentAt] at h
      cases hr : prependContentAt t i2 p with
      | none => rw [hr] at h; simp at h
      | some out2 =>
        rw [hr] at h
        simp only [Option.map_some', Option.some.injEq] at h
        subst h
        simp [firstSystemIdx, ih i2 out2 hr]

theorem firstSystemIdx_lt_length (l : List DictMessage) (i : Nat)
    (h : firstSystemIdx l = some i) : i < l.length := by
  induction l generalizing i with
  | nil => simp [firstSystemIdx] at h
  | cons m t ih =>
    rw [firstSystemIdx] at h
    by_cases hm : m.role = "system"
    · rw [if_pos hm] at h
      cases h
      simp
    · rw [if_neg hm] at h
      cases hft : firstSystemIdx t with
      | none => rw [hft] at h; simp at h
      | some k =>
        rw [hft] at h
        simp at h
        have := ih k hft
        simp only [List.length_cons]
        omega

/-- C2 amended: the injector is a no-op for `None`/empty tools; with
    tools present it inserts a fresh leading system message when none
    exists; when the first system message's dumped content is a string it
    prepends the directive to it, leaving every other entry untouched;
    when that content is `None` or a list of parts the source's string
    concatenation raises `TypeError` (modelled as `none`); and it is not
    idempotent — whenever a first application succeeds, a second
    application also succeeds but prepends the directive again and always
    changes the list, so callers must invoke it at most once per request. -/
theorem c2_inject_tools_into_messages_behaviour :
    (∀ (msgs : List DictMessage) (tc : Option ToolChoiceOption),
      inject_tools_into_messages msgs none tc = some msgs ∧
      inject_tools_into_messages msgs (some []) tc = some msgs) ∧
    (∀ (msgs : List DictMessage) (tools : List ChatCompletionFunctionTool)
        (tc : Option ToolChoiceOption), tools ≠ [] → firstSystemIdx msgs = none →
      inject_tools_into_messages msgs (some tools) tc =
        some ({ role := "system", content := .strContent (toolPrompt tools tc) } :: msgs)) ∧
    (∀ (msgs : List DictMessage) (tools : List ChatCompletionFunctionTool)
        (tc : Option ToolChoiceOption) (i : Nat) (m0 : DictMessage) (s : String),
      tools ≠ [] → firstSystemIdx msgs = some i → msgs.get? i = some m0 →
      m0.content = .strContent s →
      ∃ out, inject_tools_into_messages msgs (some tools) tc = some out ∧
        out.length = msgs.length ∧
        (∀ j, j ≠ i → out.get? j = msgs.get? j) ∧
        out.get? i = some { role := m0.role
                            content := .strContent (toolPrompt tools tc ++ "\n\n" ++ s) }) ∧
    (∀ (msgs : List DictMessage) (tools : List ChatCompletionFunctionTool)
        (tc : Option ToolChoiceOption) (i : Nat) (m0 : DictMessage),
      tools ≠ [] → firstSystemIdx msgs = some i → msgs.get? i = some m0 →
      (m0.content = .noContent ∨ ∃ items, m0.content = .listContent items) →
      inject_tools_into_messages msgs (some tools) tc = none) ∧
    (∀ (msgs : List DictMessage) (tools : List ChatCompletionFunctionTool)
        (tc : Option ToolChoiceOption) (out : List DictMessage), tools ≠ [] →
      inject_tools_into_messages msgs (some tools) tc = some out →
      ∃ out2, inject_tools_into_messages out (some tools) tc = some out2 ∧ out2 ≠ out) := by
  refine ⟨fun msgs tc => ⟨rfl, rfl⟩, ?_, ?_, ?_, ?_⟩
  · intro msgs tools tc htools hfs
    obtain ⟨t, ts, rfl⟩ : ∃ t ts, tools = t :: ts := by
      cases tools with
      | nil => exact absurd rfl htools
      | cons t ts => exact ⟨t, ts, rfl⟩
    rw [inject_tools_into_messages, hfs]
  · intro msgs tools tc i m0 s htools hfs hget hc
    obtain ⟨t, ts, rfl⟩ : ∃ t ts, tools = t :: ts := by
      cases tools with
      | nil => exact absurd rfl htools
      | cons t ts => exact ⟨t, ts, rfl⟩
    obtain ⟨out, hout⟩ := prependContentAt_succeeds msgs i (toolPrompt (t :: ts) tc) m0 s hget hc
    obtain ⟨hlen, hne, hgi⟩ := prependContentAt_some_spec msgs i _ out hout
    obtain ⟨s2, hs2, houti⟩ := hgi m0 hget
    rw [hc] at hs2
    cases hs2
    refine ⟨out, ?_, hlen, hne, houti⟩
    rw [inject_tools_into_messages, hfs]
    exact hout
  · intro msgs tools tc i m0 htools hfs hget hshape
    obtain ⟨t, ts, rfl⟩ : ∃ t ts, tools = t :: ts := by
      cases tools with
      | nil => exact absurd rfl htools
      | cons t ts => exact ⟨t, ts, rfl⟩
    rw [inject_tools_into_messages, hfs]
    refine prependContentAt_fails msgs i _ m0 hget ?_
    rcases hshape with hn | ⟨items, hl⟩
    · rw [hn]; rfl
    · rw [hl]; rfl
  · intro msgs tools tc out htools hsucc
    obtain ⟨t, ts, rfl⟩ : ∃ t ts, tools = t :: ts := by
      cases tools with
      | nil => exact absurd rfl htools
      | cons t ts => exact ⟨t, ts, rfl⟩
    cases hfs : firstSystemIdx msgs with
    | none =>
      rw [inject_tools_into_messages, hfs] at hsucc
      simp only [Option.some.injEq] at hsucc
      subst hsucc
      refine ⟨{ role := "system"
                content := .strContent (toolPrompt (t :: ts) tc ++ "\n\n" ++ toolPrompt (t :: ts) tc) }
              :: msgs, ?_, ?_⟩
      · rw [inject_tools_into_messages]
        have hfs0 : firstSystemIdx
            ({ role := "system", content := .strContent (toolPrompt (t :: ts) tc) } :: msgs) =
            some 0 := by
          simp [firstSystemIdx]
        simp only [hfs0]
        rfl
      · intro heq
        have h0 := congrArg (fun l => l.get? 0) heq
        simp only [List.get?, Option.some.injEq, DictMessage.mk.injEq,
          MsgContent.strContent.injEq, true_and] at h0
        have hlen := congrArg String.length h0
        have h2 : ("\n\n" : String).length = 2 := rfl
        simp only [String.length_append, h2] at hlen
        omega
    | some i =>
      have hi := firstSystemIdx_lt_length msgs i hfs
      rw [inject_tools_into_messages, hfs] at hsucc
      obtain ⟨hlen, hne, hgi⟩ := prependContentAt_some_spec msgs i _ out hsucc
      cases hg : msgs.get? i with
      | none =>
        have := List.get?_eq_none.mp hg
        omega
      | some m0 =>
        obtain ⟨s, hs, houti⟩ := hgi m0 hg
        have hfs2 : firstSystemIdx out = some i := by
          rw [firstSystemIdx_prependContentAt_some msgs i _ out hsucc, hfs]
        obtain ⟨out2, hout2⟩ :=
          prependContentAt_succeeds out i (toolPrompt (t :: ts) tc) _ _ houti rfl
        refine ⟨out2, ?_, ?_⟩
        · rw [inject_tools_into_messages, hfs2]
          exact hout2
        · intro heq
          rw [heq] at hout2
          obtain ⟨_, _, hgi2⟩ := prependContentAt_some_spec out i _ out hout2
          obtain ⟨s2, hs2, houti2⟩ := hgi2 _ houti
          simp only [MsgContent.strContent.injEq] at hs2
          subst hs2
          rw [houti] at houti2
          simp only [Option.some.injEq, DictMessage.mk.injEq,
            MsgContent.strContent.injEq, true_and] at houti2
          have hlen2 := congrArg String.length houti2
          have h2 : ("\n\n" : String).length = 2 := rfl
          simp only [String.length_append, h2] at hlen2
          omega

/-- C2 counterexample: a concrete request (one user message, one tool)
    where the first application succeeds and a second application of the
    injector to its output does not leave the list unchanged — it prepends
    the directive a second time. -/
theorem c2_counterexample :
    (inject_tools_into_messages [{ role := "user", content := .strContent "hi" }]
        (some [{ function := some { name := "get_weather", description := none, parameters := none } }]) none).bind
      (fun m1 => inject_tools_into_messages m1
        (some [{ function := some { name := "get_weather", description := none, parameters := none } }]) none) ≠
    inject_tools_into_messages [{ role := "user", content := .strContent "hi" }]
      (some [{ function := some { name := "get_weather", description := none, parameters := none } }]) none := by
  decide

/-- Witness for the amended C2 statement: the merge branch applied to a
    concrete conversation with an existing string-content system message. -/
theorem c2_witness :
    ∃ out, inject_tools_into_messages [{ role := "system", content := .strContent "S" }]
        (some [{ function := some { name := "get_weather", description := none, parameters := none } }]) none =
        some out ∧
      out.length = ([{ role := "system", content := .strContent "S" }] : List DictMessage).length ∧
      (∀ j, j ≠ 0 →
        out.get? j = ([{ role := "system", content := .strContent "S" }] : List DictMessage).get? j) ∧
      out.get? 0 = some { role := "system"
                          content := .strContent (toolPrompt
                            [{ function := some { name := "get_weather", description := none, parameters := none } }]
                            none ++ "\n\n" ++ "S") } :=
  c2_inject_tools_into_messages_behaviour.2.2.1
    [{ role := "system", content := .strContent "S" }]
    [{ function := some { name := "get_weather", description := none, parameters := none } }]
    none 0 { role := "system", content := .strContent "S" } "S"
    (by simp) (by decide) rfl rfl

/-- C5: on the inline-XML path, while an opening `<tool_call>` tag is in
    the combined text without its closing tag the extractor suppresses all
    visible output and buffers the full combined text (first conjunct); and
    the spec's two-fragment scenario yields zero content chunks, exactly
    one tool-call delta with function `get_weather` and the verbatim JSON
    arguments, and a terminal chunk with finish reason `tool_calls`
    (second conjunct, for every uuid supply). -/
theorem c5_inline_xml_tool_streaming :
    (∀ (supply : Nat → String) (chunk buffer : String),
      pyContains (buffer ++ chunk) "<tool_call>" = true →
      pyContains (buffer ++ chunk) "</tool_call>" = false →
      extract_tool_calls_from_stream supply chunk buffer = ("", [], buffer ++ chunk)) ∧
    (∀ supply : Nat → String,
      stream_generator
          { hasTools := true, useNativeTools := false, supply := supply,
            nativeExtract := fun _ => [] }
          [{ text := some "<tool_call><name>get_w" },
           { text := some "eather</name><arguments>\x7b\"city\":\"NYC\"\x7d</arguments></tool_call>" }] =
        [.toolDelta 0 ("call_" ++ (supply 0).take 24) "get_weather" "\x7b\"city\":\"NYC\"\x7d",
         .finish "tool_calls", .done]) := by
  constructor
  · intro supply chunk buffer h1 h2
    rw [extract_tool_calls_from_stream]
    simp only [h1, h2, if_true, if_false, Bool.false_eq_true, reduceIte]
  · intro supply
    rfl

/-- Witness for C5 at a concrete uuid supply, buffer and chunk. -/
theorem c5_witness :
    pyContains ("<tool_call><name>ge" ++ "t_w") "<tool_call>" = true ∧
    pyContains ("<tool_call><name>ge" ++ "t_w") "</tool_call>" = false ∧
    extract_tool_calls_from_stream (fun _ => "u") "t_w" "<tool_call><name>ge" =
      ("", [], "<tool_call><name>ge" ++ "t_w") :=
  ⟨by decide, by decide,
    c5_inline_xml_tool_streaming.1 (fun _ => "u") "t_w" "<tool_call><name>ge"
      (by decide) (by decide)⟩

/-- String-prefix tests extend along appends. -/
theorem pyStartsWith_append_of (s t m : String) (h : pyStartsWith s m = true) :
    pyStartsWith (s ++ t) m = true := by
  simp only [pyStartsWith, listPrefix, List.isPrefixOf_iff_prefix, String.data_append] at h ⊢
  exact h.trans (List.prefix_append _ _)

/-- Contrapositive form used to peel fragments off the accumulated text. -/
theorem pyStartsWith_of_append (s t m : String) (h : pyStartsWith (s ++ t) m = false) :
    pyStartsWith s m = false := by
  by_contra hc
  rw [pyStartsWith_append_of s t m (by revert hc; cases pyStartsWith s m <;> simp)] at h
  exact Bool.true_eq_false.mp h

/-- C4: five consecutive marker fragments followed by one clean non-empty
    fragment, in a no-tools request whose accumulated text never starts
    with `*Thinking...*`, produce exactly one synthetic started chunk, one
    separator chunk and the clean fragment verbatim (then the ordinary
    terminal chunks) — no duplicate started chunk and no raw marker
    fragment. -/
theorem c4_thinking_marker_coalescing (cfg : StreamCfg) (hcfg : cfg.hasTools = false)
    (f1 f2 f3 f4 f5 f6 : String)
    (h1 : pyContains f1 "Thinking..." = true) (h2 : pyContains f2 "Thinking..." = true)
    (h3 : pyContains f3 "Thinking..." = true) (h4 : pyContains f4 "Thinking..." = true)
    (h5 : pyContains f5 "Thinking..." = true) (h6 : pyContains f6 "Thinking..." = false)
    (h6ne : f6 ≠ "")
    (hacc : pyStartsWith (String.join [f1, f2, f3, f4, f5, f6]) "*Thinking...*" = false) :
    stream_generator cfg
        [{ text := some f1 }, { text := some f2 }, { text := some f3 },
         { text := some f4 }, { text := some f5 }, { text := some f6 }] =
      [.content "*Thinking...*", .content "\n\n", .content f6, .finish "stop", .done] := by
  have hne : ∀ f : String, pyContains f "Thinking..." = true → f ≠ "" := by
    intro f hf hempty
    rw [hempty] at hf
    exact absurd hf (by decide)
  have c5' : pyStartsWith (String.join [f1, f2, f3, f4, f5]) "*Thinking...*" = false :=
    pyStartsWith_of_append _ f6 _ hacc
  have c4' : pyStartsWith (String.join [f1, f2, f3, f4]) "*Thinking...*" = false :=
    pyStartsWith_of_append _ f5 _ c5'
  have c3' : pyStartsWith (String.join [f1, f2, f3]) "*Thinking...*" = false :=
    pyStartsWith_of_append _ f4 _ c4'
  have c2' : pyStartsWith (String.join [f1, f2]) "*Thinking...*" = false :=
    pyStartsWith_of_append _ f3 _ c3'
  have c1' : pyStartsWith (String.join [f1]) "*Thinking...*" = false :=
    pyStartsWith_of_append _ f2 _ c2'
  have e1 : handle_streaming_partial_event cfg ⟨[], false, false, "", "stop", 0⟩
      { text := some f1 } =
      (⟨[f1], true, false, "", "stop", 0⟩, [.content "*Thinking...*"]) := by
    simp only [handle_streaming_partial_event, handle_thinking_pattern]
    simp [h1, c1', hne f1 h1]
  have e2 : handle_streaming_partial_event cfg ⟨[f1], true, false, "", "stop", 0⟩
      { text := some f2 } = (⟨[f1, f2], true, false, "", "stop", 0⟩, []) := by
    simp only [handle_streaming_partial_event, handle_thinking_pattern]
    simp [h2, c2', hne f2 h2]
  have e3 : handle_streaming_partial_event cfg ⟨[f1, f2], true, false, "", "stop", 0⟩
      { text := some f3 } = (⟨[f1, f2, f3], true, false, "", "stop", 0⟩, []) := by
    simp only [handle_streaming_partial_event, handle_thinking_pattern]
    simp [h3, c3', hne f3 h3]
  have e4 : handle_streaming_partial_event cfg ⟨[f1, f2, f3], true, false, "", "stop", 0⟩
      { text := some f4 } = (⟨[f1, f2, f3, f4], true, false, "", "stop", 0⟩, []) := by
    simp only [handle_streaming_partial_event, handle_thinking_pattern]
    simp [h4, c4', hne f4 h4]
  have e5 : handle_streaming_partial_event cfg ⟨[f1, f2, f3, f4], true, false, "", "stop", 0⟩
      { text := some f5 } = (⟨[f1, f2, f3, f4, f5], true, false, "", "stop", 0⟩, []) := by
    simp only [handle_streaming_partial_event, handle_thinking_pattern]
    simp [h5, c5', hne f5 h5]
  have e6 : handle_streaming_partial_event cfg ⟨[f1, f2, f3, f4, f5], true, false, "", "stop", 0⟩
      { text := some f6 } =
      (⟨[f1, f2, f3, f4, f5, f6], true, true, "", "stop", 0⟩,
       [.content "

", .content f6]) := by
    simp only [handle_streaming_partial_event, handle_thinking_pattern]
    simp [h6, h6ne, hcfg]
  have hrun : runPartials cfg ⟨[], false, false, "", "stop", 0⟩
      [{ text := some f1 }, { text := some f2 }, { text := some f3 },
       { text := some f4 }, { text := some f5 }, { text := some f6 }] =
      (⟨[f1, f2, f3, f4, f5, f6], true, true, "", "stop", 0⟩,
       [.content "*Thinking...*", .content "

", .content f6]) := by
    simp only [runPartials, e1, e2, e3, e4, e5, e6]
    simp
  have hinit : initialStreamState = (⟨[], false, false, "", "stop", 0⟩ : StreamState) := rfl
  rw [stream_generator, hinit, hrun]
  simp [hcfg]

/-- Witness for C4 on five literal marker ticks and one clean fragment. -/
theorem c4_witness :
    stream_generator ⟨false, false, fun _ => "", fun _ => []⟩
        [{ text := some "Thinking..." }, { text := some "Thinking..." },
         { text := some "Thinking..." }, { text := some "Thinking..." },
         { text := some "Thinking..." }, { text := some "The answer is 4" }] =
      [.content "*Thinking...*", .content "\n\n", .content "The answer is 4",
       .finish "stop", .done] :=
  c4_thinking_marker_coalescing ⟨false, false, fun _ => "", fun _ => []⟩ rfl
    "Thinking..." "Thinking..." "Thinking..." "Thinking..." "Thinking..." "The answer is 4"
    (by decide) (by decide) (by decide) (by decide) (by decide) (by decide) (by decide)
    (by decide)

/-! ### Helper lemmas for the message adapter -/

theorem setMsgAttachments_length (l : List ProtocolMessage) (i : Nat) (a : List Attachment) :
    (setMsgAttachments l i a).length = l.length := by
  induction l generalizing i with
  | nil => rfl
  | cons m t ih =>
    cases i with
    | zero => rfl
    | succ j => simp [setMsgAttachments, ih]

theorem setMsgAttachments_get_ne (l : List ProtocolMessage) (i j : Nat) (a : List Attachment)
    (h : j ≠ i) : (setMsgAttachments l i a).get? j = l.get? j := by
  induction l generalizing i j with
  | nil => rfl
  | cons m t ih =>
    cases i with
    | zero =>
      cases j with
      | zero => exact absurd rfl h
      | succ k => simp [setMsgAttachments]
    | succ i2 =>
      cases j with
      | zero => simp [setMsgAttachments]
      | succ k =>
        simp only [setMsgAttachments, List.get?]
        exact ih i2 k (fun hh => h (by rw [hh]))

theorem setMsgAttachments_get_eq (l : List ProtocolMessage) (i : Nat) (a : List Attachment) :
    (setMsgAttachments l i a).get? i = (l.get? i).map fun m =>
      { role := m.role, content := m.content, attachments := a } := by
  induction l generalizing i with
  | nil => rfl
  | cons m t ih =>
    cases i with
    | zero => rfl
    | succ j => simpa [setMsgAttachments] using ih j

theorem lastUserIdx_none_spec (l : List ProtocolMessage)
    (h : lastUserIdx l = none) : ∀ j m, l.get? j = some m → m.role ≠ "user" := by
  induction l with
  | nil => intro j m hm; simp at hm
  | cons x xs ih =>
    rw [lastUserIdx] at h
    cases hxs : lastUserIdx xs with
    | some k => rw [hxs] at h; simp at h
    | none =>
      rw [hxs] at h
      by_cases hx : x.role = "user"
      · rw [if_pos hx] at h; simp at h
      · rw [if_neg hx] at h
        intro j m hm
        cases j with
        | zero =>
          simp only [List.get?] at hm
          cases hm
          exact hx
        | succ j2 => exact ih hxs j2 m (by simpa using hm)

theorem lastUserIdx_some_spec (l : List ProtocolMessage) (i : Nat)
    (h : lastUserIdx l = some i) :
    i < l.length ∧ (∃ m, l.get? i = some m ∧ m.role = "user") ∧
      ∀ j, i < j → ∀ m, l.get? j = some m → m.role ≠ "user" := by
  induction l generalizing i with
  | nil => simp [lastUserIdx] at h
  | cons m t ih =>
    rw [lastUserIdx] at h
    cases hft : lastUserIdx t with
    | some k =>
      rw [hft] at h
      simp only [Option.some.injEq] at h
      obtain ⟨hk, ⟨m0, hm0, hrole⟩, hafter⟩ := ih k hft
      subst h
      refine ⟨by simpa using hk, ⟨m0, by simpa using hm0, hrole⟩, ?_⟩
      intro j hj m1 hm1
      cases j with
      | zero => omega
      | succ j2 =>
        exact hafter j2 (by omega) m1 (by simpa using hm1)
    | none =>
      rw [hft] at h
      by_cases hm : m.role = "user"
      · rw [if_pos hm] at h
        cases h
        refine ⟨by simp, ⟨m, rfl, hm⟩, ?_⟩
        intro j hj m1 hm1
        cases j with
        | zero => omega
        | succ j2 =>
          exact lastUserIdx_none_spec t hft j2 m1 (by simpa using hm1)
      · rw [if_neg hm] at h
        simp at h

/-- The aggregate attachment collection of one conversion run (per-message
    base64 and embedded-file attachments in message order, then the
    explicit attachments) — what the conversion loop accumulates in
    `all_attachments`. -/
def discoveredAttachments (oracle : AdapterOracle) (msgs : List PyChatMessage)
    (atts : List Attachment) : List Attachment :=
  ((msgs.map (convertOne oracle)).map (fun s => s.2.1)).flatten ++ atts

/-- C8: for every non-empty conversation, every oracle and any explicit
    attachments, the adapter succeeds with exactly one output message per
    input message, and the discovered attachments all land on exactly one
    output message: the last user-role one when it exists, otherwise the
    last message; every other message carries no attachments. -/
theorem c8_convert_to_poe_messages_placement (oracle : AdapterOracle)
    (msgs : List PyChatMessage) (atts : List Attachment) (h : msgs ≠ []) :
    ∃ out log, convert_to_poe_messages oracle msgs atts = (.ok out, log) ∧
      out.length = msgs.length ∧
      (discoveredAttachments oracle msgs atts = [] →
        ∀ m ∈ out, m.attachments = []) ∧
      (discoveredAttachments oracle msgs atts ≠ [] →
        ∃ k, k < out.length ∧
          (∀ j, ∀ m, out.get? j = some m →
            m.attachments = if j = k then discoveredAttachments oracle msgs atts else []) ∧
          ((∃ m, out.get? k = some m ∧ m.role = "user") ∧
             (∀ j, k < j → ∀ m, out.get? j = some m → m.role ≠ "user") ∨
           (∀ j m, out.get? j = some m → m.role ≠ "user") ∧ k = out.length - 1)) := by
  have hne : msgs.isEmpty = false := by
    cases msgs with
    | nil => exact absurd rfl h
    | cons a t => rfl
  have hlen0 : 0 < msgs.length := by
    cases msgs with
    | nil => exact absurd rfl h
    | cons a t => simp
  set pms := (msgs.map (convertOne oracle)).map (fun s => s.1) with hpms
  set allA := discoveredAttachments oracle msgs atts with hallA
  have hplen : pms.length = msgs.length := by simp [hpms]
  have hpmsatt : ∀ m ∈ pms, m.attachments = [] := by
    intro m hm
    rw [hpms] at hm
    obtain ⟨s, _, rfl⟩ := List.mem_map.mp hm
    obtain ⟨msg, _, rfl⟩ := List.mem_map.mp (by assumption : s ∈ msgs.map (convertOne oracle))
    rfl
  have hconv : convert_to_poe_messages oracle msgs atts =
      (.ok (placeAttachments pms allA),
       ((msgs.map (convertOne oracle)).map (fun s => s.2.2)).flatten) := by
    rw [convert_to_poe_messages, hne]
    rfl
  refine ⟨placeAttachments pms allA, _, hconv, ?_, ?_, ?_⟩
  · rw [placeAttachments]
    by_cases hA : allA = []
    · rw [if_pos hA]
      exact hplen
    · rw [if_neg hA]
      cases lastUserIdx pms with
      | some i => rw [setMsgAttachments_length]; exact hplen
      | none => rw [setMsgAttachments_length]; exact hplen
  · intro hA m hm
    rw [placeAttachments, if_pos hA] at hm
    exact hpmsatt m hm
  · intro hA
    rw [placeAttachments, if_neg hA]
    cases hu : lastUserIdx pms with
    | some i =>
      obtain ⟨hi, ⟨m0, hm0, hrole⟩, hafter⟩ := lastUserIdx_some_spec pms i hu
      refine ⟨i, by rw [setMsgAttachments_length]; exact hi, ?_, ?_⟩
      · intro j m hm
        by_cases hj : j = i
        · subst hj
          rw [setMsgAttachments_get_eq, hm0] at hm
          simp only [Option.map_some'] at hm
          cases hm
          simp
        · rw [setMsgAttachments_get_ne _ _ _ _ hj] at hm
          rw [if_neg hj]
          exact hpmsatt m (List.get?_mem hm)
      · left
        refine ⟨⟨{ role := m0.role, content := m0.content, attachments := allA }, ?_, hrole⟩, ?_⟩
        · rw [setMsgAttachments_get_eq, hm0]
          rfl
        · intro j hj m hm
          rw [setMsgAttachments_get_ne _ _ _ _ (by omega)] at hm
          exact hafter j hj m hm
    | none =>
      have hplen2 : 0 < pms.length := by omega
      refine ⟨pms.length - 1, by rw [setMsgAttachments_length]; omega, ?_, ?_⟩
      · intro j m hm
        by_cases hj : j = pms.length - 1
        · subst hj
          rw [setMsgAttachments_get_eq] at hm
          cases hg : pms.get? (pms.length - 1) with
          | none =>
            rw [hg] at hm
            simp at hm
          | some m1 =>
            rw [hg] at hm
            simp only [Option.map_some'] at hm
            cases hm
            simp
        · rw [setMsgAttachments_get_ne _ _ _ _ hj] at hm
          rw [if_neg hj]
          exact hpmsatt m (List.get?_mem hm)
      · right
        refine ⟨?_, by rw [setMsgAttachments_length]⟩
        intro j m hm
        by_cases hj : j = pms.length - 1
        · subst hj
          rw [setMsgAttachments_get_eq] at hm
          cases hg : pms.get? (pms.length - 1) with
          | none =>
            rw [hg] at hm
            simp at hm
          | some m1 =>
            rw [hg] at hm
            simp only [Option.map_some'] at hm
            cases hm
            exact lastUserIdx_none_spec pms hu _ m1 hg
        · rw [setMsgAttachments_get_ne _ _ _ _ hj] at hm
          exact lastUserIdx_none_spec pms hu j m hm

/-- Witness for C8 on a concrete two-message conversation with one
    explicit attachment and a trivial oracle. -/
theorem c8_witness :
    ∃ out log,
      convert_to_poe_messages
          ⟨fun _ => .notFound, fun _ => none, fun _ _ => none⟩
          [{ role := "system", content := .strContent "be nice" },
           { role := "user", content := .strContent "hi" }]
          [{ url := "https://poe/att1" }] = (.ok out, log) ∧
      out.length = 2 ∧
      (discoveredAttachments ⟨fun _ => .notFound, fun _ => none, fun _ _ => none⟩
          [{ role := "system", content := .strContent "be nice" },
           { role := "user", content := .strContent "hi" }]
          [{ url := "https://poe/att1" }] = [] →
        ∀ m ∈ out, m.attachments = []) ∧
      (discoveredAttachments ⟨fun _ => .notFound, fun _ => none, fun _ _ => none⟩
          [{ role := "system", content := .strContent "be nice" },
           { role := "user", content := .strContent "hi" }]
          [{ url := "https://poe/att1" }] ≠ [] →
        ∃ k, k < out.length ∧
          (∀ j, ∀ m, out.get? j = some m →
            m.attachments = if j = k then
              discoveredAttachments ⟨fun _ => .notFound, fun _ => none, fun _ _ => none⟩
                [{ role := "system", content := .strContent "be nice" },
                 { role := "user", content := .strContent "hi" }]
                [{ url := "https://poe/att1" }] else []) ∧
          ((∃ m, out.get? k = some m ∧ m.role = "user") ∧
             (∀ j, k < j → ∀ m, out.get? j = some m → m.role ≠ "user") ∨
           (∀ j m, out.get? j = some m → m.role ≠ "user") ∧ k = out.length - 1)) := by
  obtain ⟨out, log, hconv, hlen, hrest⟩ :=
    c8_convert_to_poe_messages_placement
      ⟨fun _ => .notFound, fun _ => none, fun _ _ => none⟩
      [{ role := "system", content := .strContent "be nice" },
       { role := "user", content := .strContent "hi" }]
      [{ url := "https://poe/att1" }] (by simp)
  exact ⟨out, log, hconv, by simpa using hlen, hrest⟩
